import Mathlib

/-!
# Wii Balance Board game controller

A shallow embedding of the two firmware programs of the repository:

* `Balance Wii board checker/src/main.cpp`: the balance interpretation engine
  (calibration, baseline tracking, squat detection, direction classification,
  debounce, UART dispatch);
* `WiiBalanceBoard USB HID/src/main.cpp`: the keystroke mapper that turns the
  received command lines into key presses.

Conventions of the embedding.

* `float` values are embedded as rationals (exact arithmetic, no rounding, no NaN).
* `millis()` is an `unsigned long` of 32 bits: a cycle carries the true time `now`
  in milliseconds, the reading is `now % 2^32`, and a difference of two readings is
  taken modulo `2^32`.  One cycle of `loop` uses one reading.
* The `String` commands of the engine form a closed set (the empty string and nine
  command literals); they are embedded as the enumeration `Cmd`, and `Cmd.wire` gives
  the text of each.  What is written to `Serial2` is kept as a list of lines.
* The connection state machine, the data timeout and the drawing code of the engine's
  `loop` neither read nor write the variables of the decision logic and are left out.
* `Keyboard` is the Arduino keyboard library; its report is embedded as the list of
  keys held.
-/

namespace WiiBoard

/-! ## Commands -/

/-- The values taken by the `String` variables `currentCmd`, `nextCmd`, `pendingCmd`,
`targetCmd` and `lastCmd`; `NONE` is the empty string. -/
inductive Cmd where
  | NONE
  | UP
  | DOWN
  | LEFT
  | RIGHT
  | UP_RIGHT
  | UP_LEFT
  | DOWN_RIGHT
  | DOWN_LEFT
  | SPACE
  deriving DecidableEq, Repr

/-- The text of a command, as the engine holds it. -/
def Cmd.wire : Cmd → String
  | .NONE => ""
  | .UP => "CMD:UP"
  | .DOWN => "CMD:DOWN"
  | .LEFT => "CMD:LEFT"
  | .RIGHT => "CMD:RIGHT"
  | .UP_RIGHT => "CMD:UP_RIGHT"
  | .UP_LEFT => "CMD:UP_LEFT"
  | .DOWN_RIGHT => "CMD:DOWN_RIGHT"
  | .DOWN_LEFT => "CMD:DOWN_LEFT"
  | .SPACE => "CMD:SPACE"

/-! ## UART dispatch (`loop`, section 3 of the data branch) -/

/-- The dispatch block: `targetCmd = uartEnabled ? currentCmd : ""`, and when it differs
from `lastCmd` a `CMD:RELEASE` line is written if `lastCmd` was not empty, then the
target line if it is not empty, and `lastCmd` becomes the target.  Returns the lines
written and the new `lastCmd`. -/
def dispatch (uartEnabled : Bool) (lastCmd currentCmd : Cmd) : List String × Cmd :=
  let targetCmd := if uartEnabled then currentCmd else Cmd.NONE
  if targetCmd ≠ lastCmd then
    ((if lastCmd ≠ Cmd.NONE then ["CMD:RELEASE"] else [])
      ++ (if targetCmd ≠ Cmd.NONE then [targetCmd.wire] else []), targetCmd)
  else
    ([], lastCmd)

/-- The dispatcher run over a sequence of (confirmed command, output-enable flag) pairs:
all lines written, in order, and the final `lastCmd`. -/
def dispatchAll : Cmd → List (Cmd × Bool) → List String × Cmd
  | lastCmd, [] => ([], lastCmd)
  | lastCmd, (c, en) :: rest =>
    let r := dispatch en lastCmd c
    let r2 := dispatchAll r.2 rest
    (r.1 ++ r2.1, r2.2)

/-- The nine activate messages of the transport. -/
def isActivate (m : String) : Bool :=
  m == "CMD:UP" || m == "CMD:DOWN" || m == "CMD:LEFT" || m == "CMD:RIGHT"
    || m == "CMD:UP_RIGHT" || m == "CMD:UP_LEFT" || m == "CMD:DOWN_RIGHT"
    || m == "CMD:DOWN_LEFT" || m == "CMD:SPACE"

/-- Adjacent-pair form of the release discipline: an activate line follows only a
`CMD:RELEASE` line. -/
def ReleaseBefore (a m : String) : Prop := isActivate m = true → a = "CMD:RELEASE"

/-! ## Keystroke mapper (`WiiBalanceBoard USB HID/src/main.cpp`) -/

/-- The keys the mapper uses: `KEY_UP_ARROW`, `KEY_DOWN_ARROW`, `KEY_LEFT_ARROW`,
`KEY_RIGHT_ARROW` and the character `' '`. -/
inductive Key where
  | KEY_UP_ARROW
  | KEY_DOWN_ARROW
  | KEY_LEFT_ARROW
  | KEY_RIGHT_ARROW
  | KEY_SPACE
  deriving DecidableEq, Repr

/-- The `Keyboard.press` call of the Arduino keyboard library on the list of keys held
in the report: a key already held is not added a second time. -/
def Keyboard.press (held : List Key) (k : Key) : List Key :=
  if k ∈ held then held else held ++ [k]

/-- The `Keyboard.release` call: the key leaves the report. -/
def Keyboard.release (held : List Key) (k : Key) : List Key :=
  held.filter (fun x => x ≠ k)

/-- The `Keyboard.releaseAll` call: the report is emptied. -/
def Keyboard.releaseAll (_held : List Key) : List Key := []

/-- The `Keyboard.write` call: press, then release, of one key. -/
def Keyboard.write (held : List Key) (k : Key) : List Key :=
  Keyboard.release (Keyboard.press held k) k

/-- One pass of the mapper's `loop` on a received, trimmed line `command`: the chain
of string comparisons of the source; an empty or unknown line changes nothing. -/
def HID.loop (held : List Key) (command : String) : List Key :=
  if command.length > 0 then
    if command = "CMD:UP" then Keyboard.press held Key.KEY_UP_ARROW
    else if command = "CMD:DOWN" then Keyboard.press held Key.KEY_DOWN_ARROW
    else if command = "CMD:LEFT" then Keyboard.press held Key.KEY_LEFT_ARROW
    else if command = "CMD:RIGHT" then Keyboard.press held Key.KEY_RIGHT_ARROW
    else if command = "CMD:UP_RIGHT" then
      Keyboard.press (Keyboard.press held Key.KEY_UP_ARROW) Key.KEY_RIGHT_ARROW
    else if command = "CMD:UP_LEFT" then
      Keyboard.press (Keyboard.press held Key.KEY_UP_ARROW) Key.KEY_LEFT_ARROW
    else if command = "CMD:DOWN_RIGHT" then
      Keyboard.press (Keyboard.press held Key.KEY_DOWN_ARROW) Key.KEY_RIGHT_ARROW
    else if command = "CMD:DOWN_LEFT" then
      Keyboard.press (Keyboard.press held Key.KEY_DOWN_ARROW) Key.KEY_LEFT_ARROW
    else if command = "CMD:SPACE" then Keyboard.write held Key.KEY_SPACE
    else if command = "CMD:RELEASE" then Keyboard.releaseAll held
    else held
  else held

/-- The mapper fed a sequence of lines, one pass of its `loop` per line. -/
def HID.feed (held : List Key) (lines : List String) : List Key :=
  lines.foldl HID.loop held

/-- The arrow keys of a command: one for a cardinal direction, two for a diagonal,
none for `NONE` and for `SPACE`. -/
def arrowKeys : Cmd → List Key
  | .NONE => []
  | .UP => [Key.KEY_UP_ARROW]
  | .DOWN => [Key.KEY_DOWN_ARROW]
  | .LEFT => [Key.KEY_LEFT_ARROW]
  | .RIGHT => [Key.KEY_RIGHT_ARROW]
  | .UP_RIGHT => [Key.KEY_UP_ARROW, Key.KEY_RIGHT_ARROW]
  | .UP_LEFT => [Key.KEY_UP_ARROW, Key.KEY_LEFT_ARROW]
  | .DOWN_RIGHT => [Key.KEY_DOWN_ARROW, Key.KEY_RIGHT_ARROW]
  | .DOWN_LEFT => [Key.KEY_DOWN_ARROW, Key.KEY_LEFT_ARROW]
  | .SPACE => []

/-! ## Engine state (`Balance Wii board checker/src/main.cpp`) -/

/-- The reading of `millis()` at true time `now` (milliseconds since start). -/
def millis (now : Nat) : Nat := now % 4294967296

/-- The `unsigned long` difference `ms - t` of the source, modulo `2^32`. -/
def since (ms t : Nat) : Nat := (ms % 4294967296 + (4294967296 - t % 4294967296)) % 4294967296

/-- The constant `SQUAT_RATIO`. -/
def SQUAT_RATIO : ℚ := 12 / 100

/-- The constant `DIR_THRESHOLD`. -/
def DIR_THRESHOLD : ℚ := 15 / 100

/-- The four corner weights delivered by one `WIIMOTE_EVENT_DATA` event. -/
structure Sample where
  tr : ℚ
  br : ℚ
  tl : ℚ
  bl : ℚ
  deriving Repr

/-- The sum the callback stores in `g_total`. -/
def Sample.total (w : Sample) : ℚ := w.tr + w.br + w.tl + w.bl

/-- The raw X balance ratio of a sample: the expression of `balX` with a zero offset,
which is also what calibration stores in `balX_offset`. -/
def Sample.ratioX (w : Sample) : ℚ := ((w.tr + w.br) - (w.tl + w.bl)) / w.total

/-- The raw Y balance ratio of a sample: the expression of `balY` with a zero offset,
which is also what calibration stores in `balY_offset`. -/
def Sample.ratioY (w : Sample) : ℚ := ((w.tr + w.tl) - (w.br + w.bl)) / w.total

/-- The global and function-static variables of the engine that the decision logic
reads or writes (the connection state and the drawing timer are left out: they only
drive the display and the rescan). -/
structure Engine where
  baseWeight : ℚ
  balX_offset : ℚ
  balY_offset : ℚ
  uartEnabled : Bool
  upDownEnabled : Bool
  lastCmd : Cmd
  display_total : ℚ
  display_balX : ℚ
  display_balY : ℚ
  display_cmd : Cmd
  lastDisplayCmdTime : Nat
  g_tr : ℚ
  g_br : ℚ
  g_tl : ℚ
  g_bl : ℚ
  g_total : ℚ
  g_dataUpdated : Bool
  heavyTime : Nat
  lastSquatTime : Nat
  pendingCmd : Cmd
  pendingTime : Nat
  deriving Repr

/-- The initial values of the variables, as declared in the source. -/
def Engine.init : Engine where
  baseWeight := 0
  balX_offset := 0
  balY_offset := 0
  uartEnabled := true
  upDownEnabled := true
  lastCmd := Cmd.NONE
  display_total := 0
  display_balX := 0
  display_balY := 0
  display_cmd := Cmd.NONE
  lastDisplayCmdTime := 0
  g_tr := 0
  g_br := 0
  g_tl := 0
  g_bl := 0
  g_total := 0
  g_dataUpdated := false
  heavyTime := 0
  lastSquatTime := 0
  pendingCmd := Cmd.NONE
  pendingTime := 0

/-- The `WIIMOTE_EVENT_DATA` branch of `wiimote_callback`: the four weights and their
sum are stored and the new-data flag is raised. -/
def wiimote_callback (s : Engine) (w : Sample) : Engine :=
  { s with
    g_tr := w.tr, g_br := w.br, g_tl := w.tl, g_bl := w.bl,
    g_total := w.tr + w.br + w.tl + w.bl,
    g_dataUpdated := true }

/-- The calibration block of `loop` (button A): the baseline becomes the latest total,
and the offsets become the latest raw balance ratios when the total is above 1.0,
zero otherwise. -/
def calibrate (s : Engine) : Engine :=
  if s.g_total > 1 then
    { s with
      baseWeight := s.g_total,
      balX_offset := ((s.g_tr + s.g_br) - (s.g_tl + s.g_bl)) / s.g_total,
      balY_offset := ((s.g_tr + s.g_tl) - (s.g_br + s.g_bl)) / s.g_total }
  else
    { s with baseWeight := s.g_total, balX_offset := 0, balY_offset := 0 }

/-! ## Decision logic of the data branch -/

/-- The baseline update of the occupied branch (static `heavyTime`): the fast path when
the baseline is 0 and the total is above 10, the 500 ms hold when the total is above
the baseline plus 2, and the reset of `heavyTime` otherwise. -/
def updateBaseWeight (s : Engine) (ms : Nat) (total : ℚ) : Engine :=
  if s.baseWeight = 0 ∧ total > 10 then
    { s with baseWeight := total }
  else if total > s.baseWeight + 2 then
    if s.heavyTime = 0 then { s with heavyTime := ms }
    else if since ms s.heavyTime > 500 then { s with baseWeight := total, heavyTime := 0 }
    else s
  else
    { s with heavyTime := 0 }

/-- The eight-direction decision with diagonal priority; `up` and `down` are forced to
false when the up-down detection is disabled. -/
def classify (upDownEnabled : Bool) (balX balY : ℚ) : Cmd :=
  let up : Bool := decide (balY > DIR_THRESHOLD) && upDownEnabled
  let down : Bool := decide (balY < -DIR_THRESHOLD) && upDownEnabled
  let right : Bool := decide (balX > DIR_THRESHOLD)
  let left : Bool := decide (balX < -DIR_THRESHOLD)
  if up && right then Cmd.UP_RIGHT
  else if up && left then Cmd.UP_LEFT
  else if down && right then Cmd.DOWN_RIGHT
  else if down && left then Cmd.DOWN_LEFT
  else if up then Cmd.UP
  else if down then Cmd.DOWN
  else if right then Cmd.RIGHT
  else if left then Cmd.LEFT
  else Cmd.NONE

/-- The debounce block (statics `pendingCmd`, `pendingTime`): returns the new state and
the value left in `currentCmd`. -/
def debounce (s : Engine) (ms : Nat) (nextCmd : Cmd) : Engine × Cmd :=
  if nextCmd ≠ Cmd.NONE then
    if nextCmd = s.pendingCmd then
      if since ms s.pendingTime > 150 then (s, nextCmd) else (s, Cmd.NONE)
    else
      ({ s with pendingCmd := nextCmd, pendingTime := ms }, Cmd.NONE)
  else
    ({ s with pendingCmd := Cmd.NONE }, Cmd.NONE)

/-- The squat test and, when it fails, the direction decision (static `lastSquatTime`).
Returns the new state, the local `nextCmd` when the direction block ran, and
`currentCmd`. -/
def detect (s : Engine) (ms : Nat) (total balX balY : ℚ) : Engine × Option Cmd × Cmd :=
  if total > s.baseWeight * (1 + SQUAT_RATIO) then
    if since ms s.lastSquatTime > 500 then
      ({ s with lastSquatTime := ms }, none, Cmd.SPACE)
    else
      (s, none, Cmd.NONE)
  else if since ms s.lastSquatTime > 600 then
    let nextCmd := classify s.upDownEnabled balX balY
    let r := debounce s ms nextCmd
    (r.1, some nextCmd, r.2)
  else
    (s, none, Cmd.NONE)

/-- The locals of one pass through the data branch of `loop`, and the lines it wrote to
`Serial2`; `nextCmd` is present when the direction block ran. -/
structure Pass where
  total : ℚ
  balX : ℚ
  balY : ℚ
  nextCmd : Option Cmd
  currentCmd : Cmd
  sent : List String
  deriving Repr

/-- The end of the data branch: UART dispatch and the copy to the display variables. -/
def finish (s : Engine) (ms : Nat) (total balX balY : ℚ) (nextCmd : Option Cmd)
    (currentCmd : Cmd) : Engine × Pass :=
  let d := dispatch s.uartEnabled s.lastCmd currentCmd
  ({ s with
      lastCmd := d.2,
      display_total := total,
      display_balX := balX,
      display_balY := balY,
      display_cmd :=
        if currentCmd ≠ Cmd.NONE then currentCmd
        else if since ms s.lastDisplayCmdTime > 500 then Cmd.NONE
        else s.display_cmd,
      lastDisplayCmdTime := if currentCmd ≠ Cmd.NONE then ms else s.lastDisplayCmdTime },
    { total := total, balX := balX, balY := balY, nextCmd := nextCmd,
      currentCmd := currentCmd, sent := d.1 })

/-- The body of `if (g_dataUpdated)` in `loop`, at clock reading `ms`. -/
def processData (s0 : Engine) (ms : Nat) : Engine × Pass :=
  let s := { s0 with g_dataUpdated := false }
  let total := s.g_total
  if total < 3 then
    finish { s with baseWeight := 0 } ms total 0 0 none Cmd.NONE
  else
    let s1 := updateBaseWeight s ms total
    let balX := (((s.g_tr + s.g_br) - (s.g_tl + s.g_bl)) / total) - s1.balX_offset
    let balY := (((s.g_tr + s.g_tl) - (s.g_br + s.g_bl)) / total) - s1.balY_offset
    let r := detect s1 ms total balX balY
    finish r.1 ms total balX balY r.2.1 r.2.2

/-- The inputs of one iteration of `loop`: the true time, the three button edges and the
last sample delivered by `wiimote.handle()` during the iteration, if any. -/
structure Cycle where
  now : Nat
  btnA : Bool
  btnB : Bool
  btnC : Bool
  data : Option Sample
  deriving Repr

/-- The part of `loop` before the data branch: sample delivery by `wiimote.handle()`,
calibration (button A), and the two toggles (buttons B and C). -/
def handleInputs (s : Engine) (c : Cycle) : Engine :=
  let s1 := match c.data with
    | some w => wiimote_callback s w
    | none => s
  let s2 := if c.btnA then calibrate s1 else s1
  let s3 := if c.btnB then { s2 with uartEnabled := !s2.uartEnabled } else s2
  if c.btnC then { s3 with upDownEnabled := !s3.upDownEnabled } else s3

/-- One iteration of `loop`: the inputs, then the data branch when the new-data flag
is up. -/
def loop (s : Engine) (c : Cycle) : Engine × Option Pass :=
  let s4 := handleInputs s c
  if s4.g_dataUpdated then
    let r := processData s4 (millis c.now)
    (r.1, some r.2)
  else
    (s4, none)

/-- The command confirmed by an iteration: `currentCmd` of its pass, `NONE` when no
sample was processed. -/
def confirmed : Option Pass → Cmd
  | some p => p.currentCmd
  | none => Cmd.NONE

/-- The state after a sequence of iterations. -/
def runLoop (s : Engine) (cs : List Cycle) : Engine :=
  cs.foldl (fun st c => (loop st c).1) s

/-- The passes of a sequence of iterations, one entry per iteration. -/
def trace : Engine → List Cycle → List (Option Pass)
  | _, [] => []
  | s, c :: cs => (loop s c).2 :: trace (loop s c).1 cs

/-- A plain iteration that delivers and processes sample `w` at time `now`, no button
pressed. -/
def sampleAt (now : Nat) (w : Sample) : Cycle :=
  { now := now, btnA := false, btnB := false, btnC := false, data := some w }

/-- A sample with the weight spread evenly over the four corners. -/
def Sample.even (total : ℚ) : Sample :=
  { tr := total / 4, br := total / 4, tl := total / 4, bl := total / 4 }

/-- The raw candidate of the sample delivered in an iteration, whether or not the
direction block runs on it: the direction its balance vector classifies to (the
`balX`, `balY` and `classify` of the source, with the offsets and up-down flag in force
when it is processed), and `NONE` when the platform is unoccupied or no sample is
delivered. -/
def rawCandidate (s : Engine) (c : Cycle) : Cmd :=
  match c.data with
  | some w =>
    if w.total < 3 then Cmd.NONE
    else classify (handleInputs s c).upDownEnabled
      (w.ratioX - (handleInputs s c).balX_offset) (w.ratioY - (handleInputs s c).balY_offset)
  | none => Cmd.NONE

/-- The raw candidates along a sequence of iterations, one entry per iteration. -/
def rawCandidates : Engine → List Cycle → List Cmd
  | _, [] => []
  | s, c :: cs => rawCandidate s c :: rawCandidates (loop s c).1 cs

/-! ## Dispatcher lemmas -/

/-- The lines of one dispatch: nothing, a release, an activation after an empty
`lastCmd`, or a release followed by an activation. -/
theorem dispatch_shape (en : Bool) (last c : Cmd) :
    ((dispatch en last c).1 = [] ∧ (dispatch en last c).2 = last)
    ∨ (last ≠ Cmd.NONE ∧ (dispatch en last c).1 = ["CMD:RELEASE"]
        ∧ (dispatch en last c).2 = Cmd.NONE)
    ∨ (last = Cmd.NONE ∧ (dispatch en last c).2 ≠ Cmd.NONE
        ∧ (dispatch en last c).1 = [(dispatch en last c).2.wire])
    ∨ (last ≠ Cmd.NONE ∧ (dispatch en last c).2 ≠ Cmd.NONE
        ∧ (dispatch en last c).1 = ["CMD:RELEASE", (dispatch en last c).2.wire]) := by
  unfold dispatch
  generalize (if en = true then c else Cmd.NONE) = t
  by_cases h1 : t = last
  · left; simp [h1]
  · right
    by_cases h2 : last = Cmd.NONE <;> by_cases h3 : t = Cmd.NONE
    · exact absurd (h3.trans h2.symm) h1
    · right; left; subst h2; simp [h3]
    · left; subst h3; simp [h2, Ne.symm h2]
    · right; right; simp [h1, h2, h3]

/-- From any `lastCmd` the written lines keep the release discipline, and when a
command is active the first line written, if any, is the release. -/
theorem dispatchAll_chain (ins : List (Cmd × Bool)) :
    ∀ last : Cmd, List.Chain' ReleaseBefore (dispatchAll last ins).1
      ∧ (last ≠ Cmd.NONE → ∀ m ∈ (dispatchAll last ins).1.head?, m = "CMD:RELEASE") := by
  induction ins with
  | nil => intro last; simp [dispatchAll]
  | cons x rest ih =>
    intro last
    obtain ⟨c, en⟩ := x
    simp only [dispatchAll]
    obtain ⟨ihc, ihh⟩ := ih (dispatch en last c).2
    rcases dispatch_shape en last c with
      ⟨h1, h2⟩ | ⟨h0, h1, h2⟩ | ⟨h0, h2, h1⟩ | ⟨h0, h2, h1⟩
    · rw [h1, h2] at *
      simpa using ih last
    · rw [h1]
      refine ⟨?_, fun _ => by simp⟩
      apply List.Chain'.append (by simp) ihc
      intro a ha m _ _
      simpa using ha.symm
    · rw [h1]
      refine ⟨?_, fun h => absurd h0 h⟩
      apply List.Chain'.append (by simp) ihc
      intro a _ m hm hact
      have := ihh h2 m hm
      rw [this] at hact
      exact absurd hact (by decide)
    · rw [h1]
      refine ⟨?_, fun _ => by simp⟩
      apply List.Chain'.append _ ihc
      · intro a _ m hm hact
        have := ihh h2 m hm
        rw [this] at hact
        exact absurd hact (by decide)
      · simp [ReleaseBefore]

/-- The run of the dispatcher over two sequences in a row. -/
theorem dispatchAll_append (xs ys : List (Cmd × Bool)) :
    ∀ last : Cmd, dispatchAll last (xs ++ ys)
      = ((dispatchAll last xs).1 ++ (dispatchAll (dispatchAll last xs).2 ys).1,
         (dispatchAll (dispatchAll last xs).2 ys).2) := by
  induction xs with
  | nil => intro last; simp [dispatchAll]
  | cons x rest ih =>
    intro last
    obtain ⟨c, en⟩ := x
    simp [dispatchAll, ih]

/-- With output disabled and nothing active the dispatcher stays silent. -/
theorem dispatchAll_off (cs : List Cmd) :
    dispatchAll Cmd.NONE (cs.map (fun c => (c, false))) = ([], Cmd.NONE) := by
  induction cs with
  | nil => rfl
  | cons c rest ih => simp [dispatchAll, dispatch, ih]

/-- With nothing active and only `NONE` confirmed the dispatcher stays silent. -/
theorem dispatchAll_idle (k : Nat) :
    dispatchAll Cmd.NONE (List.replicate k (Cmd.NONE, true)) = ([], Cmd.NONE) := by
  induction k with
  | zero => rfl
  | succ n ih => simp [List.replicate_succ, dispatchAll, dispatch, ih]

/-! ## Keystroke mapper lemmas -/

/-- A release line empties the report. -/
theorem hidLoop_release (held : List Key) : HID.loop held "CMD:RELEASE" = [] := by
  have hlen : "CMD:RELEASE".length > 0 := by decide
  unfold HID.loop
  rw [if_pos hlen]
  simp [Keyboard.releaseAll]

/-- On an empty report an activate line leaves exactly the arrow keys of its command. -/
theorem hidLoop_wire (c : Cmd) (h : c ≠ Cmd.NONE) : HID.loop [] c.wire = arrowKeys c := by
  cases c <;> first | exact absurd rfl h | decide

/-- The mapper follows the dispatcher: starting with the arrow keys of `lastCmd` held,
the lines of any run leave the arrow keys of the final `lastCmd` held. -/
theorem hidFeed_dispatchAll (ins : List (Cmd × Bool)) :
    ∀ last : Cmd, HID.feed (arrowKeys last) (dispatchAll last ins).1
      = arrowKeys (dispatchAll last ins).2 := by
  induction ins with
  | nil => intro last; simp [dispatchAll, HID.feed]
  | cons x rest ih =>
    intro last
    obtain ⟨c, en⟩ := x
    simp only [dispatchAll, HID.feed, List.foldl_append]
    have key : List.foldl HID.loop (arrowKeys last) (dispatch en last c).1
        = arrowKeys (dispatch en last c).2 := by
      rcases dispatch_shape en last c with
        ⟨h1, h2⟩ | ⟨_, h1, h2⟩ | ⟨h0, h2, h1⟩ | ⟨_, h2, h1⟩
      · rw [h1, h2]; rfl
      · rw [h1, h2]; simp [hidLoop_release, arrowKeys]
      · subst h0
        rw [h1]
        simpa [arrowKeys] using hidLoop_wire _ h2
      · rw [h1]; simpa [hidLoop_release] using hidLoop_wire _ h2
    rw [key]
    exact ih _

/-! ## Engine lemmas: which block writes which variable -/

/-- The modular difference of two readings taken at true times `t0 ≤ t` less than
`2^32` ms apart is the true difference. -/
theorem since_millis (t0 t : Nat) (h0 : t0 ≤ t) (h1 : t < t0 + 4294967296) :
    since (millis t) (millis t0) = t - t0 := by
  unfold since millis
  omega

theorem calibrate_fields (s : Engine) :
    (calibrate s).lastSquatTime = s.lastSquatTime
    ∧ (calibrate s).lastCmd = s.lastCmd
    ∧ (calibrate s).pendingCmd = s.pendingCmd
    ∧ (calibrate s).pendingTime = s.pendingTime
    ∧ (calibrate s).heavyTime = s.heavyTime
    ∧ (calibrate s).g_total = s.g_total
    ∧ (calibrate s).g_dataUpdated = s.g_dataUpdated
    ∧ (calibrate s).g_tr = s.g_tr ∧ (calibrate s).g_br = s.g_br
    ∧ (calibrate s).g_tl = s.g_tl ∧ (calibrate s).g_bl = s.g_bl := by
  unfold calibrate
  split_ifs <;> simp

/-- The inputs of an iteration leave the timers, the pending gesture and `lastCmd`
alone. -/
theorem handleInputs_fields (s : Engine) (c : Cycle) :
    (handleInputs s c).lastSquatTime = s.lastSquatTime
    ∧ (handleInputs s c).lastCmd = s.lastCmd
    ∧ (handleInputs s c).pendingCmd = s.pendingCmd
    ∧ (handleInputs s c).pendingTime = s.pendingTime
    ∧ (handleInputs s c).heavyTime = s.heavyTime := by
  unfold handleInputs
  cases c.data <;> cases c.btnA <;> cases c.btnB <;> cases c.btnC
    <;> simp [calibrate_fields, wiimote_callback]

/-- Without button A the inputs leave the baseline alone. -/
theorem handleInputs_baseWeight (s : Engine) (c : Cycle) (hA : c.btnA = false) :
    (handleInputs s c).baseWeight = s.baseWeight := by
  unfold handleInputs
  rw [hA]
  cases c.data <;> cases c.btnB <;> cases c.btnC <;> simp [wiimote_callback]

/-- A delivered sample is what the data branch will read, and it raises the flag. -/
theorem handleInputs_data (s : Engine) (c : Cycle) (w : Sample) (h : c.data = some w) :
    (handleInputs s c).g_total = w.total ∧ (handleInputs s c).g_dataUpdated = true
      ∧ (handleInputs s c).g_tr = w.tr ∧ (handleInputs s c).g_br = w.br
      ∧ (handleInputs s c).g_tl = w.tl ∧ (handleInputs s c).g_bl = w.bl := by
  unfold handleInputs
  rw [h]
  cases c.btnA <;> cases c.btnB <;> cases c.btnC
    <;> simp [calibrate_fields, wiimote_callback, Sample.total]

theorem updateBaseWeight_fields (s : Engine) (ms : Nat) (total : ℚ) :
    (updateBaseWeight s ms total).lastSquatTime = s.lastSquatTime
    ∧ (updateBaseWeight s ms total).pendingCmd = s.pendingCmd
    ∧ (updateBaseWeight s ms total).pendingTime = s.pendingTime
    ∧ (updateBaseWeight s ms total).lastCmd = s.lastCmd
    ∧ (updateBaseWeight s ms total).uartEnabled = s.uartEnabled
    ∧ (updateBaseWeight s ms total).upDownEnabled = s.upDownEnabled
    ∧ (updateBaseWeight s ms total).balX_offset = s.balX_offset
    ∧ (updateBaseWeight s ms total).balY_offset = s.balY_offset := by
  unfold updateBaseWeight
  split_ifs <;> simp

theorem debounce_fields (s : Engine) (ms : Nat) (nextCmd : Cmd) :
    (debounce s ms nextCmd).1.lastSquatTime = s.lastSquatTime
    ∧ (debounce s ms nextCmd).1.baseWeight = s.baseWeight
    ∧ (debounce s ms nextCmd).1.heavyTime = s.heavyTime
    ∧ (debounce s ms nextCmd).1.lastCmd = s.lastCmd
    ∧ (debounce s ms nextCmd).1.uartEnabled = s.uartEnabled := by
  unfold debounce
  split_ifs <;> simp

theorem detect_fields (s : Engine) (ms : Nat) (total balX balY : ℚ) :
    (detect s ms total balX balY).1.baseWeight = s.baseWeight
    ∧ (detect s ms total balX balY).1.heavyTime = s.heavyTime
    ∧ (detect s ms total balX balY).1.lastCmd = s.lastCmd
    ∧ (detect s ms total balX balY).1.uartEnabled = s.uartEnabled := by
  unfold detect
  have hd := debounce_fields s ms (classify s.upDownEnabled balX balY)
  split_ifs <;> simp [hd]

/-- The data branch on an unoccupied platform. -/
theorem processData_unoccupied (s : Engine) (ms : Nat) (h : s.g_total < 3) :
    processData s ms
      = finish { s with g_dataUpdated := false, baseWeight := 0 } ms s.g_total 0 0 none
          Cmd.NONE := by
  simp [processData, h]

/-- The data branch on an occupied platform. -/
theorem processData_occupied (s : Engine) (ms : Nat) (h : 3 ≤ s.g_total) :
    processData s ms
      = finish
          (detect (updateBaseWeight { s with g_dataUpdated := false } ms s.g_total) ms
            s.g_total
            ((((s.g_tr + s.g_br) - (s.g_tl + s.g_bl)) / s.g_total) - s.balX_offset)
            ((((s.g_tr + s.g_tl) - (s.g_br + s.g_bl)) / s.g_total) - s.balY_offset)).1
          ms s.g_total
          ((((s.g_tr + s.g_br) - (s.g_tl + s.g_bl)) / s.g_total) - s.balX_offset)
          ((((s.g_tr + s.g_tl) - (s.g_br + s.g_bl)) / s.g_total) - s.balY_offset)
          (detect (updateBaseWeight { s with g_dataUpdated := false } ms s.g_total) ms
            s.g_total
            ((((s.g_tr + s.g_br) - (s.g_tl + s.g_bl)) / s.g_total) - s.balX_offset)
            ((((s.g_tr + s.g_tl) - (s.g_br + s.g_bl)) / s.g_total) - s.balY_offset)).2.1
          (detect (updateBaseWeight { s with g_dataUpdated := false } ms s.g_total) ms
            s.g_total
            ((((s.g_tr + s.g_br) - (s.g_tl + s.g_bl)) / s.g_total) - s.balX_offset)
            ((((s.g_tr + s.g_tl) - (s.g_br + s.g_bl)) / s.g_total) - s.balY_offset)).2.2 := by
  have h3 : ¬ s.g_total < 3 := not_lt.mpr h
  have ho := updateBaseWeight_fields { s with g_dataUpdated := false } ms s.g_total
  simp [processData, h3, ho]

/-- Dispatching `NONE` releases an active command and writes nothing else, whether the
output is enabled or not. -/
theorem dispatch_none (en : Bool) (last : Cmd) :
    dispatch en last Cmd.NONE
      = ((if last ≠ Cmd.NONE then ["CMD:RELEASE"] else []), Cmd.NONE) := by
  unfold dispatch
  by_cases h : last = Cmd.NONE
  · subst h; simp
  · simp [h, Ne.symm h]

/-- The data branch writes what the dispatch block yields on the confirmed command, with
the `uartEnabled` and `lastCmd` it started from. -/
theorem processData_dispatch (s : Engine) (ms : Nat) :
    (processData s ms).2.sent
        = (dispatch s.uartEnabled s.lastCmd (processData s ms).2.currentCmd).1
    ∧ (processData s ms).1.lastCmd
        = (dispatch s.uartEnabled s.lastCmd (processData s ms).2.currentCmd).2 := by
  by_cases h : s.g_total < 3
  · rw [processData_unoccupied s ms h]
    simp [finish]
  · rw [processData_occupied s ms (not_lt.mp h)]
    have hu := updateBaseWeight_fields { s with g_dataUpdated := false } ms s.g_total
    simp [finish, detect_fields, hu]

/-- An iteration with a delivered sample runs the data branch on it. -/
theorem loop_data (s : Engine) (c : Cycle) (w : Sample) (h : c.data = some w) :
    loop s c = ((processData (handleInputs s c) (millis c.now)).1,
      some (processData (handleInputs s c) (millis c.now)).2) := by
  unfold loop
  simp [(handleInputs_data s c w h).2.1]

/-! ## Squat detection lemmas -/

/-- The direction decision never yields `SPACE`. -/
theorem classify_ne_space (ud : Bool) (x y : ℚ) : classify ud x y ≠ Cmd.SPACE := by
  unfold classify
  simp only []
  split_ifs <;> decide

/-- The debounce block confirms its candidate or nothing. -/
theorem debounce_cmd (s : Engine) (ms : Nat) (n : Cmd) :
    (debounce s ms n).2 = Cmd.NONE ∨ (debounce s ms n).2 = n := by
  unfold debounce
  split_ifs <;> simp

/-- What `detect` does with `SPACE` and with `lastSquatTime`. -/
theorem detect_squat (s : Engine) (ms : Nat) (total x y : ℚ) :
    ((detect s ms total x y).2.2 = Cmd.SPACE →
        since ms s.lastSquatTime > 500 ∧ (detect s ms total x y).1.lastSquatTime = ms)
    ∧ ((detect s ms total x y).2.2 ≠ Cmd.SPACE →
        (detect s ms total x y).1.lastSquatTime = s.lastSquatTime)
    ∧ (since ms s.lastSquatTime ≤ 500 → (detect s ms total x y).2.2 = Cmd.NONE)
    ∧ (total > s.baseWeight * (1 + SQUAT_RATIO) → since ms s.lastSquatTime > 500 →
        (detect s ms total x y).2.2 = Cmd.SPACE) := by
  have hd := (debounce_fields s ms (classify s.upDownEnabled x y)).1
  have hc := debounce_cmd s ms (classify s.upDownEnabled x y)
  have hn := classify_ne_space s.upDownEnabled x y
  unfold detect
  by_cases h1 : total > s.baseWeight * (1 + SQUAT_RATIO)
  · by_cases h2 : since ms s.lastSquatTime > 500
    · simp [h1, h2]
    · simp [h1, h2]
  · by_cases h3 : since ms s.lastSquatTime > 600
    · simp only [h1, h3, if_true, if_false]
      refine ⟨?_, fun _ => hd, fun h => by omega, fun h => h.elim⟩
      intro h
      rcases hc with e | e
      · rw [e] at h; exact absurd h (by decide)
      · rw [e] at h; exact absurd h hn
    · simp [h1, h3]

/-- What the data branch does with `SPACE` and with `lastSquatTime`. -/
theorem processData_squat (s : Engine) (ms : Nat) :
    ((processData s ms).2.currentCmd = Cmd.SPACE →
        since ms s.lastSquatTime > 500 ∧ (processData s ms).1.lastSquatTime = ms)
    ∧ ((processData s ms).2.currentCmd ≠ Cmd.SPACE →
        (processData s ms).1.lastSquatTime = s.lastSquatTime)
    ∧ (since ms s.lastSquatTime ≤ 500 → (processData s ms).2.currentCmd = Cmd.NONE)
    ∧ (3 ≤ s.g_total →
        s.g_total > (processData s ms).1.baseWeight * (1 + SQUAT_RATIO) →
        since ms s.lastSquatTime > 500 → (processData s ms).2.currentCmd = Cmd.SPACE) := by
  by_cases h : s.g_total < 3
  · rw [processData_unoccupied s ms h]
    simp [finish]
    intro h3
    exact absurd h (not_lt.mpr h3)
  · have h3 : 3 ≤ s.g_total := not_lt.mp h
    rw [processData_occupied s ms h3]
    have hu := (updateBaseWeight_fields { s with g_dataUpdated := false } ms s.g_total).1
    have hdet := detect_squat (updateBaseWeight { s with g_dataUpdated := false } ms s.g_total)
      ms s.g_total
      ((((s.g_tr + s.g_br) - (s.g_tl + s.g_bl)) / s.g_total) - s.balX_offset)
      ((((s.g_tr + s.g_tl) - (s.g_br + s.g_bl)) / s.g_total) - s.balY_offset)
    have hb := (detect_fields (updateBaseWeight { s with g_dataUpdated := false } ms s.g_total)
      ms s.g_total
      ((((s.g_tr + s.g_br) - (s.g_tl + s.g_bl)) / s.g_total) - s.balX_offset)
      ((((s.g_tr + s.g_tl) - (s.g_br + s.g_bl)) / s.g_total) - s.balY_offset)).1
    rw [hu] at hdet
    simp only [finish]
    rw [hb]
    exact ⟨hdet.1, hdet.2.1, hdet.2.2.1, fun _ => hdet.2.2.2⟩

/-- What one iteration does with `SPACE` and with `lastSquatTime`. -/
theorem loop_squat (s : Engine) (c : Cycle) :
    (confirmed (loop s c).2 = Cmd.SPACE →
        since (millis c.now) s.lastSquatTime > 500
        ∧ (loop s c).1.lastSquatTime = millis c.now)
    ∧ (confirmed (loop s c).2 ≠ Cmd.SPACE → (loop s c).1.lastSquatTime = s.lastSquatTime)
    ∧ (since (millis c.now) s.lastSquatTime ≤ 500 → confirmed (loop s c).2 = Cmd.NONE) := by
  have hp := processData_squat (handleInputs s c) (millis c.now)
  rw [(handleInputs_fields s c).1] at hp
  unfold loop
  by_cases h : (handleInputs s c).g_dataUpdated = true
  · simp only [h, if_true, confirmed]
    exact ⟨hp.1, hp.2.1, hp.2.2.1⟩
  · simp only [h, confirmed]
    simp [(handleInputs_fields s c).1]

/-- While the clock stays within 500 ms of `lastSquatTime`, nothing is confirmed. -/
theorem trace_quiet (cs : List Cycle) :
    ∀ s : Engine, (∀ c ∈ cs, since (millis c.now) s.lastSquatTime ≤ 500) →
      (trace s cs).map confirmed = cs.map (fun _ => Cmd.NONE) := by
  induction cs with
  | nil => intro s _; rfl
  | cons c rest ih =>
    intro s h
    have hq := (loop_squat s c).2.2 (h c (List.mem_cons_self _ _))
    have hl := (loop_squat s c).2.1 (by rw [hq]; decide)
    simp only [trace, List.map_cons, hq]
    rw [ih (loop s c).1 (fun c' hc' => by rw [hl]; exact h c' (List.mem_cons_of_mem _ hc'))]

/-- Once `lastSquatTime` is at least `L` and not after the coming iterations, whose
times do not decrease and do not wrap, every `SPACE` confirmed later comes more than
500 ms after `L`. -/
theorem space_after (cs : List Cycle) :
    ∀ (s : Engine) (L : Nat), L ≤ s.lastSquatTime →
      (∀ c ∈ cs, s.lastSquatTime ≤ c.now ∧ c.now < 4294967296) →
      cs.Pairwise (fun a b => a.now ≤ b.now) →
      ∀ b ∈ cs.zip (trace s cs), confirmed b.2 = Cmd.SPACE → L + 500 < b.1.now := by
  induction cs with
  | nil => intro s L _ _ _ b hb; simp at hb
  | cons c rest ih =>
    intro s L hL hcs hsort b hb hsp
    obtain ⟨hc1, hc2⟩ := hcs c (List.mem_cons_self _ _)
    rw [List.pairwise_cons] at hsort
    simp only [trace, List.zip_cons_cons, List.mem_cons] at hb
    rcases hb with rfl | hb
    · have h := ((loop_squat s c).1 hsp).1
      show L + 500 < c.now
      unfold since millis at h
      omega
    · have hlast : L ≤ (loop s c).1.lastSquatTime
          ∧ ∀ c' ∈ rest, (loop s c).1.lastSquatTime ≤ c'.now := by
        by_cases hq : confirmed (loop s c).2 = Cmd.SPACE
        · have h := ((loop_squat s c).1 hq).2
          have hm : millis c.now = c.now := by unfold millis; omega
          rw [h, hm]
          exact ⟨by omega, fun c' hc' => hsort.1 c' hc'⟩
        · rw [(loop_squat s c).2.1 hq]
          exact ⟨hL, fun c' hc' => (hcs c' (List.mem_cons_of_mem _ hc')).1⟩
      exact ih (loop s c).1 L hlast.1
        (fun c' hc' => ⟨hlast.2 c' hc', (hcs c' (List.mem_cons_of_mem _ hc')).2⟩)
        hsort.2 b hb hsp

/-! ## Baseline and debounce lemmas -/

/-- The new-data flag plays no part in the baseline update. -/
theorem updateBaseWeight_flag (s : Engine) (ms : Nat) (total : ℚ) (b : Bool) :
    (updateBaseWeight { s with g_dataUpdated := b } ms total).baseWeight
        = (updateBaseWeight s ms total).baseWeight
    ∧ (updateBaseWeight { s with g_dataUpdated := b } ms total).heavyTime
        = (updateBaseWeight s ms total).heavyTime := by
  unfold updateBaseWeight
  simp only []
  split_ifs <;> simp

/-- The baseline and `heavyTime` after the data branch: reset of the baseline on an
unoccupied platform (`heavyTime` untouched), `updateBaseWeight` otherwise. -/
theorem processData_base (s : Engine) (ms : Nat) :
    (processData s ms).1.baseWeight
        = (if s.g_total < 3 then 0 else (updateBaseWeight s ms s.g_total).baseWeight)
    ∧ (processData s ms).1.heavyTime
        = (if s.g_total < 3 then s.heavyTime
            else (updateBaseWeight s ms s.g_total).heavyTime) := by
  by_cases h : s.g_total < 3
  · rw [processData_unoccupied s ms h]
    simp [finish, h]
  · rw [processData_occupied s ms (not_lt.mp h)]
    have hf := updateBaseWeight_flag s ms s.g_total false
    simp [finish, h, detect_fields, hf]

/-- The debounce block in closed form: the pending command becomes the candidate, the
pending time restarts when a non-empty candidate differs from the pending one, and the
candidate is confirmed when it is non-empty, equal to the pending one and more than
150 ms old. -/
theorem debounce_spec (s : Engine) (ms : Nat) (n : Cmd) :
    (debounce s ms n).1.pendingCmd = n
    ∧ (debounce s ms n).1.pendingTime
        = (if n ≠ Cmd.NONE ∧ n ≠ s.pendingCmd then ms else s.pendingTime)
    ∧ (debounce s ms n).2
        = (if n ≠ Cmd.NONE ∧ n = s.pendingCmd ∧ since ms s.pendingTime > 150 then n
            else Cmd.NONE) := by
  unfold debounce
  by_cases h1 : n = Cmd.NONE
  · simp [h1]
  · by_cases h2 : n = s.pendingCmd
    · subst h2
      by_cases h3 : since ms s.pendingTime > 150
      · simp [h1, h3]
      · simp [h1, h3]
    · simp [h1, h2]

/-- The pending gesture through `detect`: untouched when the direction block does not
run, as `debounce_spec` says when it runs. -/
theorem detect_debounce (s : Engine) (ms : Nat) (total x y : ℚ) :
    ((detect s ms total x y).2.1 = none →
        (detect s ms total x y).1.pendingCmd = s.pendingCmd
        ∧ (detect s ms total x y).1.pendingTime = s.pendingTime
        ∧ ((detect s ms total x y).2.2 = Cmd.NONE ∨ (detect s ms total x y).2.2 = Cmd.SPACE))
    ∧ (∀ n, (detect s ms total x y).2.1 = some n →
        n = classify s.upDownEnabled x y
        ∧ ¬ (total > s.baseWeight * (1 + SQUAT_RATIO))
        ∧ since ms s.lastSquatTime > 600
        ∧ (detect s ms total x y).1.pendingCmd = n
        ∧ (detect s ms total x y).1.pendingTime
            = (if n ≠ Cmd.NONE ∧ n ≠ s.pendingCmd then ms else s.pendingTime)
        ∧ (detect s ms total x y).2.2
            = (if n ≠ Cmd.NONE ∧ n = s.pendingCmd ∧ since ms s.pendingTime > 150 then n
                else Cmd.NONE))
    ∧ (¬ (total > s.baseWeight * (1 + SQUAT_RATIO)) → since ms s.lastSquatTime > 600 →
        (detect s ms total x y).2.1 = some (classify s.upDownEnabled x y)) := by
  have hd := debounce_spec s ms (classify s.upDownEnabled x y)
  unfold detect
  by_cases h1 : total > s.baseWeight * (1 + SQUAT_RATIO)
  · by_cases h2 : since ms s.lastSquatTime > 500
    · simp [h1, h2]
    · simp [h1, h2]
  · by_cases h3 : since ms s.lastSquatTime > 600
    · simp only [h1, h3, if_true, if_false]
      refine ⟨fun h => by simp at h, ?_, fun _ _ => trivial⟩
      intro n hn
      have hn' : classify s.upDownEnabled x y = n := by simpa using hn
      subst hn'
      exact ⟨rfl, not_false, trivial, hd.1, hd.2.1, hd.2.2⟩
    · simp [h1, h3]

/-- The pending gesture through the data branch. -/
theorem processData_debounce (s : Engine) (ms : Nat) :
    ((processData s ms).2.nextCmd = none →
        (processData s ms).1.pendingCmd = s.pendingCmd
        ∧ (processData s ms).1.pendingTime = s.pendingTime
        ∧ ((processData s ms).2.currentCmd = Cmd.NONE
            ∨ (processData s ms).2.currentCmd = Cmd.SPACE))
    ∧ (∀ n, (processData s ms).2.nextCmd = some n →
        (processData s ms).1.pendingCmd = n
        ∧ (processData s ms).1.pendingTime
            = (if n ≠ Cmd.NONE ∧ n ≠ s.pendingCmd then ms else s.pendingTime)
        ∧ (processData s ms).2.currentCmd
            = (if n ≠ Cmd.NONE ∧ n = s.pendingCmd ∧ since ms s.pendingTime > 150 then n
                else Cmd.NONE)) := by
  by_cases h : s.g_total < 3
  · rw [processData_unoccupied s ms h]
    simp [finish]
  · rw [processData_occupied s ms (not_lt.mp h)]
    have hu := updateBaseWeight_fields { s with g_dataUpdated := false } ms s.g_total
    have hdet := detect_debounce (updateBaseWeight { s with g_dataUpdated := false } ms s.g_total)
      ms s.g_total
      ((((s.g_tr + s.g_br) - (s.g_tl + s.g_bl)) / s.g_total) - s.balX_offset)
      ((((s.g_tr + s.g_tl) - (s.g_br + s.g_bl)) / s.g_total) - s.balY_offset)
    rw [hu.2.1, hu.2.2.1] at hdet
    simp only [finish]
    refine ⟨hdet.1, fun n hn => ?_⟩
    have := hdet.2.1 n hn
    exact ⟨this.2.2.2.1, this.2.2.2.2.1, this.2.2.2.2.2⟩

/-- When the direction block runs in the data branch, and on which candidate. -/
theorem processData_reaches (s : Engine) (ms : Nat) (h3 : 3 ≤ s.g_total)
    (hnt : ¬ (s.g_total > (updateBaseWeight s ms s.g_total).baseWeight * (1 + SQUAT_RATIO)))
    (hsettle : since ms s.lastSquatTime > 600) :
    (processData s ms).2.nextCmd
      = some (classify s.upDownEnabled
          ((((s.g_tr + s.g_br) - (s.g_tl + s.g_bl)) / s.g_total) - s.balX_offset)
          ((((s.g_tr + s.g_tl) - (s.g_br + s.g_bl)) / s.g_total) - s.balY_offset)) := by
  rw [processData_occupied s ms h3]
  have hu := updateBaseWeight_fields { s with g_dataUpdated := false } ms s.g_total
  have hf := updateBaseWeight_flag s ms s.g_total false
  have hdet := (detect_debounce (updateBaseWeight { s with g_dataUpdated := false } ms s.g_total)
      ms s.g_total
      ((((s.g_tr + s.g_br) - (s.g_tl + s.g_bl)) / s.g_total) - s.balX_offset)
      ((((s.g_tr + s.g_tl) - (s.g_br + s.g_bl)) / s.g_total) - s.balY_offset)).2.2
  rw [hu.1, hf.1, hu.2.2.2.2.2.1] at hdet
  simp only [finish]
  exact hdet hnt hsettle

/-- The pending gesture through one iteration. -/
theorem loop_debounce (s : Engine) (c : Cycle) :
    ((∀ p, (loop s c).2 = some p → p.nextCmd = none) →
        (loop s c).1.pendingCmd = s.pendingCmd
        ∧ (loop s c).1.pendingTime = s.pendingTime
        ∧ (confirmed (loop s c).2 = Cmd.NONE ∨ confirmed (loop s c).2 = Cmd.SPACE))
    ∧ (∀ p n, (loop s c).2 = some p → p.nextCmd = some n →
        (loop s c).1.pendingCmd = n
        ∧ (loop s c).1.pendingTime
            = (if n ≠ Cmd.NONE ∧ n ≠ s.pendingCmd then millis c.now else s.pendingTime)
        ∧ p.currentCmd
            = (if n ≠ Cmd.NONE ∧ n = s.pendingCmd ∧ since (millis c.now) s.pendingTime > 150
                then n else Cmd.NONE)) := by
  have hp := processData_debounce (handleInputs s c) (millis c.now)
  have hf := handleInputs_fields s c
  rw [hf.2.2.1, hf.2.2.2.1] at hp
  unfold loop
  by_cases h : (handleInputs s c).g_dataUpdated = true
  · simp only [h, if_true, confirmed]
    refine ⟨fun hn => hp.1 (hn _ rfl), fun p n hpe hn => ?_⟩
    have hpe' : (processData (handleInputs s c) (millis c.now)).2 = p := by simpa using hpe
    subst hpe'
    exact hp.2 n hn
  · simp only [h, confirmed]
    simp [hf.2.2.1, hf.2.2.2.1]

/-! ## Single plain samples -/

/-- A plain iteration runs the data branch on the delivered sample. -/
theorem loop_sampleAt (s : Engine) (t : Nat) (w : Sample) :
    loop s (sampleAt t w)
      = ((processData (wiimote_callback s w) (millis t)).1,
         some (processData (wiimote_callback s w) (millis t)).2) := by
  simp [loop, handleInputs, sampleAt, wiimote_callback]

/-- A confirmed `SPACE` means the total exceeds 1.12 times the updated baseline. -/
theorem processData_space_trigger (s : Engine) (ms : Nat)
    (h : (processData s ms).2.currentCmd = Cmd.SPACE) :
    s.g_total > (processData s ms).1.baseWeight * (1 + SQUAT_RATIO) := by
  by_cases h3 : s.g_total < 3
  · rw [processData_unoccupied s ms h3] at h
    simp [finish] at h
  · rw [processData_occupied s ms (not_lt.mp h3)] at h ⊢
    simp only [finish] at h ⊢
    rw [(detect_fields _ _ _ _ _).1]
    by_contra hn
    have hd := detect_debounce (updateBaseWeight { s with g_dataUpdated := false } ms s.g_total)
      ms s.g_total
      ((((s.g_tr + s.g_br) - (s.g_tl + s.g_bl)) / s.g_total) - s.balX_offset)
      ((((s.g_tr + s.g_tl) - (s.g_br + s.g_bl)) / s.g_total) - s.balY_offset)
    have hs := (detect_squat (updateBaseWeight { s with g_dataUpdated := false } ms s.g_total)
      ms s.g_total
      ((((s.g_tr + s.g_br) - (s.g_tl + s.g_bl)) / s.g_total) - s.balX_offset)
      ((((s.g_tr + s.g_tl) - (s.g_br + s.g_bl)) / s.g_total) - s.balY_offset)).1 h
    have h600 : since ms
        (updateBaseWeight { s with g_dataUpdated := false } ms s.g_total).lastSquatTime > 600 ∨
        ¬ since ms
        (updateBaseWeight { s with g_dataUpdated := false } ms s.g_total).lastSquatTime > 600 :=
      em _
    rcases h600 with h6 | h6
    · have hsome := hd.2.2 hn h6
      have hcur := (hd.2.1 _ hsome).2.2.2.2.2
      rw [h] at hcur
      have hne := classify_ne_space
        (updateBaseWeight { s with g_dataUpdated := false } ms s.g_total).upDownEnabled
        ((((s.g_tr + s.g_br) - (s.g_tl + s.g_bl)) / s.g_total) - s.balX_offset)
        ((((s.g_tr + s.g_tl) - (s.g_br + s.g_bl)) / s.g_total) - s.balY_offset)
      split_ifs at hcur
      · exact hne hcur.symm
    · unfold detect at h
      simp [hn, h6] at h

/-- A plain unoccupied sample: baseline reset, nothing else of the decision state
touched, `NONE` confirmed. -/
theorem sample_unoccupied (s : Engine) (t : Nat) (w : Sample) (h : w.total < 3) :
    (loop s (sampleAt t w)).1.baseWeight = 0
    ∧ (loop s (sampleAt t w)).1.heavyTime = s.heavyTime
    ∧ (loop s (sampleAt t w)).1.lastSquatTime = s.lastSquatTime
    ∧ (loop s (sampleAt t w)).1.pendingCmd = s.pendingCmd
    ∧ (loop s (sampleAt t w)).1.pendingTime = s.pendingTime
    ∧ confirmed (loop s (sampleAt t w)).2 = Cmd.NONE := by
  have hu : (wiimote_callback s w).g_total < 3 := h
  rw [loop_sampleAt, processData_unoccupied _ _ hu]
  simp [finish, wiimote_callback, confirmed]

/-- A plain sample taking the fast path with no pending gesture: the baseline becomes
the total, the timers are untouched, `NONE` is confirmed. -/
theorem sample_fastpath (s : Engine) (t : Nat) (w : Sample) (hb : s.baseWeight = 0)
    (h10 : w.total > 10) (hp : s.pendingCmd = Cmd.NONE) :
    (loop s (sampleAt t w)).1.baseWeight = w.total
    ∧ (loop s (sampleAt t w)).1.heavyTime = s.heavyTime
    ∧ (loop s (sampleAt t w)).1.lastSquatTime = s.lastSquatTime
    ∧ confirmed (loop s (sampleAt t w)).2 = Cmd.NONE := by
  have hg : (wiimote_callback s w).g_total = w.total := rfl
  have hb' : (wiimote_callback s w).baseWeight = 0 := hb
  have h3 : ¬ (wiimote_callback s w).g_total < 3 := by rw [hg]; linarith
  have hbase := processData_base (wiimote_callback s w) (millis t)
  have hupd : updateBaseWeight (wiimote_callback s w) (millis t) w.total
      = { wiimote_callback s w with baseWeight := w.total } := by
    simp [updateBaseWeight, hb', h10]
  rw [hg, if_neg (by rw [← hg]; exact h3), if_neg (by rw [← hg]; exact h3), hupd] at hbase
  have hns : (processData (wiimote_callback s w) (millis t)).2.currentCmd ≠ Cmd.SPACE := by
    intro hsp
    have := processData_space_trigger _ _ hsp
    rw [hbase.1, hg] at this
    unfold SQUAT_RATIO at this
    nlinarith
  have hdeb := processData_debounce (wiimote_callback s w) (millis t)
  have hp' : (wiimote_callback s w).pendingCmd = Cmd.NONE := hp
  have hcur : (processData (wiimote_callback s w) (millis t)).2.currentCmd = Cmd.NONE := by
    cases hn : (processData (wiimote_callback s w) (millis t)).2.nextCmd with
    | none =>
      rcases (hdeb.1 hn).2.2 with e | e
      · exact e
      · exact absurd e hns
    | some n =>
      rw [(hdeb.2 n hn).2.2, hp']
      by_cases hnn : n = Cmd.NONE
      · simp [hnn]
      · simp [hnn]
  rw [loop_sampleAt]
  refine ⟨hbase.1, hbase.2, ?_, hcur⟩
  exact (processData_squat (wiimote_callback s w) (millis t)).2.1 hns

theorem debounce_config (s : Engine) (ms : Nat) (n : Cmd) :
    (debounce s ms n).1.balX_offset = s.balX_offset
    ∧ (debounce s ms n).1.balY_offset = s.balY_offset
    ∧ (debounce s ms n).1.upDownEnabled = s.upDownEnabled := by
  unfold debounce
  split_ifs <;> simp

theorem detect_config (s : Engine) (ms : Nat) (total x y : ℚ) :
    (detect s ms total x y).1.balX_offset = s.balX_offset
    ∧ (detect s ms total x y).1.balY_offset = s.balY_offset
    ∧ (detect s ms total x y).1.upDownEnabled = s.upDownEnabled := by
  have hd := debounce_config s ms (classify s.upDownEnabled x y)
  unfold detect
  split_ifs <;> simp [hd]

/-- The data branch leaves the offsets and the up-down flag alone. -/
theorem processData_config (s : Engine) (ms : Nat) :
    (processData s ms).1.balX_offset = s.balX_offset
    ∧ (processData s ms).1.balY_offset = s.balY_offset
    ∧ (processData s ms).1.upDownEnabled = s.upDownEnabled := by
  by_cases h : s.g_total < 3
  · rw [processData_unoccupied s ms h]
    simp [finish]
  · rw [processData_occupied s ms (not_lt.mp h)]
    have hu := updateBaseWeight_fields { s with g_dataUpdated := false } ms s.g_total
    simp [finish, detect_config, hu]

/-- The baseline after `updateBaseWeight` is the old one or the total. -/
theorem updateBaseWeight_cases (s : Engine) (ms : Nat) (total : ℚ) :
    (updateBaseWeight s ms total).baseWeight = s.baseWeight
    ∨ (updateBaseWeight s ms total).baseWeight = total := by
  unfold updateBaseWeight
  split_ifs <;> simp

/-- A plain occupied sample that does not meet the trigger condition, more than 600 ms
after the last trigger: the direction block runs on the classified candidate `n`. -/
theorem sample_direction (s : Engine) (t : Nat) (w : Sample) (h3 : 3 ≤ w.total)
    (hnt : w.total ≤ s.baseWeight * (1 + SQUAT_RATIO) ∨ (s.baseWeight = 0 ∧ 10 < w.total))
    (hset : since (millis t) s.lastSquatTime > 600) :
    w.total ≤ (loop s (sampleAt t w)).1.baseWeight * (1 + SQUAT_RATIO)
    ∧ (loop s (sampleAt t w)).1.lastSquatTime = s.lastSquatTime
    ∧ (loop s (sampleAt t w)).1.balX_offset = s.balX_offset
    ∧ (loop s (sampleAt t w)).1.balY_offset = s.balY_offset
    ∧ (loop s (sampleAt t w)).1.upDownEnabled = s.upDownEnabled
    ∧ (loop s (sampleAt t w)).1.pendingCmd
        = classify s.upDownEnabled (w.ratioX - s.balX_offset) (w.ratioY - s.balY_offset)
    ∧ (loop s (sampleAt t w)).1.pendingTime
        = (if classify s.upDownEnabled (w.ratioX - s.balX_offset) (w.ratioY - s.balY_offset)
              ≠ Cmd.NONE
            ∧ classify s.upDownEnabled (w.ratioX - s.balX_offset) (w.ratioY - s.balY_offset)
              ≠ s.pendingCmd
          then millis t else s.pendingTime)
    ∧ confirmed (loop s (sampleAt t w)).2
        = (if classify s.upDownEnabled (w.ratioX - s.balX_offset) (w.ratioY - s.balY_offset)
              ≠ Cmd.NONE
            ∧ classify s.upDownEnabled (w.ratioX - s.balX_offset) (w.ratioY - s.balY_offset)
              = s.pendingCmd
            ∧ since (millis t) s.pendingTime > 150
          then classify s.upDownEnabled (w.ratioX - s.balX_offset) (w.ratioY - s.balY_offset)
          else Cmd.NONE) := by
  have hg : (wiimote_callback s w).g_total = w.total := rfl
  have h3' : 3 ≤ (wiimote_callback s w).g_total := h3
  have hpos : (0 : ℚ) ≤ w.total := by linarith
  have hbase : w.total
      ≤ (updateBaseWeight (wiimote_callback s w) (millis t) w.total).baseWeight
          * (1 + SQUAT_RATIO) := by
    rcases hnt with hnt | ⟨hb0, h10⟩
    · rcases updateBaseWeight_cases (wiimote_callback s w) (millis t) w.total with e | e
      · rw [e]; exact hnt
      · rw [e]; unfold SQUAT_RATIO; nlinarith
    · have hb0' : (wiimote_callback s w).baseWeight = 0 := hb0
      have e : (updateBaseWeight (wiimote_callback s w) (millis t) w.total).baseWeight
          = w.total := by
        simp [updateBaseWeight, hb0', h10]
      rw [e]; unfold SQUAT_RATIO; nlinarith
  have hreach := processData_reaches (wiimote_callback s w) (millis t) h3'
    (by rw [hg]; exact not_lt.mpr hbase) hset
  have hdeb := (processData_debounce (wiimote_callback s w) (millis t)).2 _ hreach
  have hcfg := processData_config (wiimote_callback s w) (millis t)
  have hb := (processData_base (wiimote_callback s w) (millis t)).1
  rw [if_neg (not_lt.mpr h3'), hg] at hb
  have hcur : (processData (wiimote_callback s w) (millis t)).2.currentCmd ≠ Cmd.SPACE := by
    intro hsp
    have := processData_space_trigger _ _ hsp
    rw [hb, hg] at this
    exact absurd this (not_lt.mpr hbase)
  have hls := (processData_squat (wiimote_callback s w) (millis t)).2.1 hcur
  rw [loop_sampleAt]
  refine ⟨by rw [hb]; exact hbase, hls, hcfg.1, hcfg.2.1, hcfg.2.2, ?_, ?_, ?_⟩
  · exact hdeb.1
  · exact hdeb.2.1
  · exact hdeb.2.2

/-- The step of `sample_direction` with zero offsets, up-down detection enabled and a
sample that classifies to the non-empty direction `D`. -/
theorem dir_step (s : Engine) (t : Nat) (w : Sample) (D : Cmd) (h3 : 3 ≤ w.total)
    (hnt : w.total ≤ s.baseWeight * (1 + SQUAT_RATIO) ∨ (s.baseWeight = 0 ∧ 10 < w.total))
    (hset : since (millis t) s.lastSquatTime > 600)
    (hx : s.balX_offset = 0) (hy : s.balY_offset = 0) (hud : s.upDownEnabled = true)
    (hc : classify true w.ratioX w.ratioY = D) (hD : D ≠ Cmd.NONE) :
    w.total ≤ (loop s (sampleAt t w)).1.baseWeight * (1 + SQUAT_RATIO)
    ∧ (loop s (sampleAt t w)).1.lastSquatTime = s.lastSquatTime
    ∧ (loop s (sampleAt t w)).1.balX_offset = 0
    ∧ (loop s (sampleAt t w)).1.balY_offset = 0
    ∧ (loop s (sampleAt t w)).1.upDownEnabled = true
    ∧ (loop s (sampleAt t w)).1.pendingCmd = D
    ∧ (loop s (sampleAt t w)).1.pendingTime
        = (if D = s.pendingCmd then s.pendingTime else millis t)
    ∧ confirmed (loop s (sampleAt t w)).2
        = (if D = s.pendingCmd ∧ since (millis t) s.pendingTime > 150 then D else Cmd.NONE) := by
  have h := sample_direction s t w h3 hnt hset
  rw [hx, hy, hud, sub_zero, sub_zero, hc] at h
  refine ⟨h.1, h.2.1, h.2.2.1, h.2.2.2.1, h.2.2.2.2.1, h.2.2.2.2.2.1, ?_, ?_⟩
  · rw [h.2.2.2.2.2.2.1]
    by_cases e : D = s.pendingCmd
    · simp [e]
    · simp [e, hD]
  · rw [h.2.2.2.2.2.2.2]
    simp [hD]

/-! ## Runs: the state before each iteration -/

/-- The run up to and including iteration `n`, when there is one. -/
theorem runLoop_take_succ (s : Engine) (cs : List Cycle) (n : Nat) (c : Cycle)
    (h : cs[n]? = some c) :
    runLoop s (cs.take (n + 1)) = (loop (runLoop s (cs.take n)) c).1 := by
  rw [List.take_succ, h]
  simp [runLoop, List.foldl_append]

/-- Past the end of the sequence the run does not change. -/
theorem runLoop_take_none (s : Engine) (cs : List Cycle) (n : Nat) (h : cs[n]? = none) :
    runLoop s (cs.take (n + 1)) = runLoop s (cs.take n) := by
  rw [List.take_succ, h]
  simp

/-- Entry `k` of the trace is the pass of iteration `k` run from the state that the
first `k` iterations leave. -/
theorem trace_getElem (cs : List Cycle) :
    ∀ (s : Engine) (k : Nat),
      (trace s cs)[k]? = (cs[k]?).map (fun c => (loop (runLoop s (cs.take k)) c).2) := by
  induction cs with
  | nil => intro s k; simp [trace]
  | cons c rest ih =>
    intro s k
    cases k with
    | zero => simp [trace, runLoop]
    | succ k =>
      simp only [trace, List.getElem?_cons_succ, List.take_succ_cons, ih]
      rfl

/-- Where a pending gesture comes from.  Starting with no pending gesture, when the
pending command after the first `n` iterations is not `NONE`, the pending time is the
clock reading of an earlier iteration `i` whose sample went through the direction block
with that candidate, and every sample since `i` that went through the direction block
had that candidate. -/
theorem pending_origin (s : Engine) (cs : List Cycle) (hp : s.pendingCmd = Cmd.NONE) :
    ∀ n, (runLoop s (cs.take n)).pendingCmd ≠ Cmd.NONE →
      ∃ i ci pi, i < n ∧ cs[i]? = some ci ∧ (trace s cs)[i]? = some (some pi)
        ∧ pi.nextCmd = some (runLoop s (cs.take n)).pendingCmd
        ∧ (runLoop s (cs.take n)).pendingTime = millis ci.now
        ∧ ∀ k pk m, i ≤ k → k < n → (trace s cs)[k]? = some (some pk) →
            pk.nextCmd = some m → m = (runLoop s (cs.take n)).pendingCmd := by
  intro n
  induction n with
  | zero =>
    intro h
    exact absurd hp h
  | succ n ih =>
    cases hc : cs[n]? with
    | none =>
      rw [runLoop_take_none s cs n hc]
      intro h
      obtain ⟨i, ci, pi, hi, hci, hpi, hnx, hpt, hall⟩ := ih h
      refine ⟨i, ci, pi, by omega, hci, hpi, hnx, hpt, ?_⟩
      intro k pk m hik hk hpk hm
      by_cases hkn : k < n
      · exact hall k pk m hik hkn hpk hm
      · have hke : k = n := by omega
        subst hke
        rw [trace_getElem, hc] at hpk
        simp at hpk
    | some c =>
      have htr : (trace s cs)[n]? = some (loop (runLoop s (cs.take n)) c).2 := by
        rw [trace_getElem, hc]; rfl
      rw [runLoop_take_succ s cs n c hc]
      have hd := loop_debounce (runLoop s (cs.take n)) c
      -- the pending gesture is untouched when the direction block does not run
      have keep : (∀ p, (loop (runLoop s (cs.take n)) c).2 = some p → p.nextCmd = none) →
          (loop (runLoop s (cs.take n)) c).1.pendingCmd ≠ Cmd.NONE →
          ∃ i ci pi, i < n + 1 ∧ cs[i]? = some ci ∧ (trace s cs)[i]? = some (some pi)
            ∧ pi.nextCmd = some (loop (runLoop s (cs.take n)) c).1.pendingCmd
            ∧ (loop (runLoop s (cs.take n)) c).1.pendingTime = millis ci.now
            ∧ ∀ k pk m, i ≤ k → k < n + 1 → (trace s cs)[k]? = some (some pk) →
                pk.nextCmd = some m → m = (loop (runLoop s (cs.take n)) c).1.pendingCmd := by
        intro hnone h
        obtain ⟨e1, e2, _⟩ := hd.1 hnone
        rw [e1] at h ⊢
        rw [e2]
        obtain ⟨i, ci, pi, hi, hci, hpi, hnx, hpt, hall⟩ := ih h
        refine ⟨i, ci, pi, by omega, hci, hpi, hnx, hpt, ?_⟩
        intro k pk m hik hk hpk hm
        by_cases hkn : k < n
        · exact hall k pk m hik hkn hpk hm
        · have hke : k = n := by omega
          subst hke
          rw [htr] at hpk
          have hpk' : (loop (runLoop s (cs.take k)) c).2 = some pk := by simpa using hpk
          rw [hnone pk hpk'] at hm
          simp at hm
      cases hl : (loop (runLoop s (cs.take n)) c).2 with
      | none =>
        exact keep (fun p hp' => by rw [hl] at hp'; simp at hp')
      | some p =>
        cases hn : p.nextCmd with
        | none =>
          exact keep (fun p' hp' => by
            rw [hl] at hp'
            have : p = p' := by simpa using hp'
            rw [← this]; exact hn)
        | some m0 =>
          obtain ⟨e1, e2, _⟩ := hd.2 p m0 hl hn
          rw [e1, e2]
          intro hne
          have hpn : (trace s cs)[n]? = some (some p) := by rw [htr, hl]
          by_cases hm : m0 = (runLoop s (cs.take n)).pendingCmd
          · have hst : (runLoop s (cs.take n)).pendingCmd ≠ Cmd.NONE := by
              rw [← hm]; exact hne
            obtain ⟨i, ci, pi, hi, hci, hpi, hnx, hpt, hall⟩ := ih hst
            refine ⟨i, ci, pi, by omega, hci, hpi, by rw [hnx, hm], ?_, ?_⟩
            · rw [if_neg (by simp [hm]), hpt]
            · intro k pk m hik hk hpk hmk
              by_cases hkn : k < n
              · rw [hm]; exact hall k pk m hik hkn hpk hmk
              · have hke : k = n := by omega
                subst hke
                rw [hpn] at hpk
                have : p = pk := by simpa using hpk
                subst this
                rw [hn] at hmk
                simpa using hmk.symm
          · refine ⟨n, c, p, by omega, hc, hpn, hn, ?_, ?_⟩
            · rw [if_pos ⟨hne, hm⟩]
            · intro k pk m hik hk hpk hmk
              have hke : k = n := by omega
              subst hke
              rw [hpn] at hpk
              have : p = pk := by simpa using hpk
              subst this
              rw [hn] at hmk
              simpa using hmk.symm

/-- The baseline update away from the fast path (non-zero baseline), case by case. -/
theorem updateBaseWeight_slow (s : Engine) (ms : Nat) (total : ℚ) (hb : s.baseWeight ≠ 0) :
    (total > s.baseWeight + 2 ∧ s.heavyTime = 0
      ∧ (updateBaseWeight s ms total).baseWeight = s.baseWeight
      ∧ (updateBaseWeight s ms total).heavyTime = ms)
    ∨ (total > s.baseWeight + 2 ∧ s.heavyTime ≠ 0 ∧ since ms s.heavyTime > 500
      ∧ (updateBaseWeight s ms total).baseWeight = total
      ∧ (updateBaseWeight s ms total).heavyTime = 0)
    ∨ (total > s.baseWeight + 2 ∧ s.heavyTime ≠ 0 ∧ ¬ since ms s.heavyTime > 500
      ∧ (updateBaseWeight s ms total).baseWeight = s.baseWeight
      ∧ (updateBaseWeight s ms total).heavyTime = s.heavyTime)
    ∨ (¬ total > s.baseWeight + 2
      ∧ (updateBaseWeight s ms total).baseWeight = s.baseWeight
      ∧ (updateBaseWeight s ms total).heavyTime = 0) := by
  unfold updateBaseWeight
  by_cases h1 : total > s.baseWeight + 2
  · by_cases h2 : s.heavyTime = 0
    · left; simp [hb, h1, h2]
    · by_cases h3 : since ms s.heavyTime > 500
      · right; left; simp [hb, h1, h2, h3]
      · right; right; left; simp [hb, h1, h2, h3]
  · right; right; right; simp [hb, h1]

/-- One iteration that delivers an occupied sample, without button A, from a non-zero
baseline: the four cases of the slow baseline update. -/
theorem loop_heavy (st : Engine) (c : Cycle) (w : Sample) (hA : c.btnA = false)
    (hd : c.data = some w) (h3 : 3 ≤ w.total) (hb : st.baseWeight ≠ 0) :
    (w.total > st.baseWeight + 2 ∧ st.heavyTime = 0
      ∧ (loop st c).1.baseWeight = st.baseWeight
      ∧ (loop st c).1.heavyTime = millis c.now)
    ∨ (w.total > st.baseWeight + 2 ∧ st.heavyTime ≠ 0
      ∧ since (millis c.now) st.heavyTime > 500
      ∧ (loop st c).1.baseWeight = w.total
      ∧ (loop st c).1.heavyTime = 0)
    ∨ (w.total > st.baseWeight + 2 ∧ st.heavyTime ≠ 0
      ∧ ¬ since (millis c.now) st.heavyTime > 500
      ∧ (loop st c).1.baseWeight = st.baseWeight
      ∧ (loop st c).1.heavyTime = st.heavyTime)
    ∨ (¬ w.total > st.baseWeight + 2
      ∧ (loop st c).1.baseWeight = st.baseWeight
      ∧ (loop st c).1.heavyTime = 0) := by
  have hg := (handleInputs_data st c w hd).1
  have hbw := handleInputs_baseWeight st c hA
  have hht := (handleInputs_fields st c).2.2.2.2
  have hbase := processData_base (handleInputs st c) (millis c.now)
  have h3' : ¬ (handleInputs st c).g_total < 3 := by rw [hg]; exact not_lt.mpr h3
  rw [if_neg h3', if_neg h3', hg] at hbase
  have hslow := updateBaseWeight_slow (handleInputs st c) (millis c.now) w.total
    (by rw [hbw]; exact hb)
  rw [hbw, hht] at hslow
  rw [loop_data st c w hd]
  simp only []
  rw [hbase.1, hbase.2]
  exact hslow

/-- Where a running heavy timer comes from.  From a non-zero baseline with the timer
unset, over iterations that each deliver an occupied sample without button A, the
baseline stays non-zero, and when `heavyTime` is set after the first `n` iterations it
is the clock reading of an earlier iteration `i`, and every sample since `i` exceeded
the baseline by more than 2. -/
theorem heavy_origin (s : Engine) (cs : List Cycle) (hb : s.baseWeight ≠ 0)
    (hh : s.heavyTime = 0)
    (hcs : ∀ c ∈ cs, c.btnA = false ∧ ∃ w, c.data = some w ∧ 3 ≤ w.total) :
    ∀ n, (runLoop s (cs.take n)).baseWeight ≠ 0
      ∧ ((runLoop s (cs.take n)).heavyTime ≠ 0 →
        ∃ i ci, i < n ∧ cs[i]? = some ci
          ∧ (runLoop s (cs.take n)).heavyTime = millis ci.now
          ∧ ∀ k ck w, i ≤ k → k < n → cs[k]? = some ck → ck.data = some w →
              w.total > (runLoop s (cs.take n)).baseWeight + 2) := by
  intro n
  induction n with
  | zero => exact ⟨hb, fun h => absurd hh h⟩
  | succ n ih =>
    obtain ⟨ihb, ihh⟩ := ih
    cases hc : cs[n]? with
    | none =>
      rw [runLoop_take_none s cs n hc]
      refine ⟨ihb, fun h => ?_⟩
      obtain ⟨i, ci, hi, hci, hpt, hall⟩ := ihh h
      refine ⟨i, ci, by omega, hci, hpt, ?_⟩
      intro k ck w hik hk hck hw
      by_cases hkn : k < n
      · exact hall k ck w hik hkn hck hw
      · have hke : k = n := by omega
        subst hke
        rw [hc] at hck
        simp at hck
    | some c =>
      obtain ⟨hA, w, hd, h3⟩ := hcs c (List.getElem?_mem hc)
      rw [runLoop_take_succ s cs n c hc]
      rcases loop_heavy (runLoop s (cs.take n)) c w hA hd h3 ihb with
        ⟨hgt, h0, e1, e2⟩ | ⟨hgt, hn0, h500, e1, e2⟩ | ⟨hgt, hn0, h500, e1, e2⟩
        | ⟨hle, e1, e2⟩
      · rw [e1, e2]
        refine ⟨ihb, fun _ => ⟨n, c, by omega, hc, rfl, ?_⟩⟩
        intro k ck w' hik hk hck hw
        have hke : k = n := by omega
        subst hke
        rw [hc] at hck
        have : c = ck := by simpa using hck
        subst this
        rw [hd] at hw
        have : w = w' := by simpa using hw
        subst this
        exact hgt
      · rw [e1, e2]
        exact ⟨by intro h0; rw [h0] at h3; norm_num at h3, fun h => absurd rfl h⟩
      · rw [e1, e2]
        refine ⟨ihb, fun h => ?_⟩
        obtain ⟨i, ci, hi, hci, hpt, hall⟩ := ihh h
        refine ⟨i, ci, by omega, hci, hpt, ?_⟩
        intro k ck w' hik hk hck hw
        by_cases hkn : k < n
        · exact hall k ck w' hik hkn hck hw
        · have hke : k = n := by omega
          subst hke
          rw [hc] at hck
          have : c = ck := by simpa using hck
          subst this
          rw [hd] at hw
          have : w = w' := by simpa using hw
          subst this
          exact hgt
      · rw [e1, e2]
        exact ⟨ihb, fun h => absurd rfl h⟩

/-! ## C1 -/

/-- C1: from the initial `lastCmd` (empty), whatever the sequence of confirmed commands
and output-enable flags, every activate line that is not the very first line written
is immediately preceded by `CMD:RELEASE`. -/
theorem C1_activate_preceded_by_release (ins : List (Cmd × Bool)) (i : Nat) (m : String) :
    (dispatchAll Cmd.NONE ins).1[i + 1]? = some m → isActivate m = true →
      (dispatchAll Cmd.NONE ins).1[i]? = some "CMD:RELEASE" := by
  intro hm hact
  have hc := (dispatchAll_chain ins Cmd.NONE).1
  rw [List.chain'_iff_get] at hc
  obtain ⟨hlt, hget⟩ := List.getElem?_eq_some.mp hm
  have hi : i < (dispatchAll Cmd.NONE ins).1.length - 1 := by omega
  have := hc i hi
  simp only [List.get_eq_getElem] at this
  rw [hget] at this
  rw [List.getElem?_eq_getElem (by omega)]
  exact congrArg some (this hact)

/-- C1 at a concrete run: UP, then LEFT, then output disabled. -/
theorem C1_activate_preceded_by_release_witness :
    (dispatchAll Cmd.NONE [(Cmd.UP, true), (Cmd.LEFT, true), (Cmd.LEFT, false)]).1
        = ["CMD:UP", "CMD:RELEASE", "CMD:LEFT", "CMD:RELEASE"]
      ∧ (dispatchAll Cmd.NONE [(Cmd.UP, true), (Cmd.LEFT, true), (Cmd.LEFT, false)]).1[1]?
        = some "CMD:RELEASE" :=
  ⟨by decide,
   C1_activate_preceded_by_release [(Cmd.UP, true), (Cmd.LEFT, true), (Cmd.LEFT, false)] 1
     "CMD:LEFT" (by decide) (by decide)⟩

/-! ## C2 -/

/-- C2: end to end, after each dispatcher cycle (after the first `n` inputs of any
sequence of confirmed commands and output-enable flags) the mapper, fed the lines
written so far from an empty report, holds exactly the arrow keys of the last
dispatched command: one for a cardinal direction, two for a diagonal, none for
`NONE` and for `CMD:SPACE`. -/
theorem C2_held_keys_follow_lastCmd (ins : List (Cmd × Bool)) (n : Nat) :
    HID.feed [] (dispatchAll Cmd.NONE (ins.take n)).1
      = arrowKeys (dispatchAll Cmd.NONE (ins.take n)).2 :=
  hidFeed_dispatchAll (ins.take n) Cmd.NONE

/-! ## C5 -/

/-- C5: from a dispatcher state with an active command `last`, the first sample
processed with output off writes exactly one `CMD:RELEASE`; whatever is confirmed on
the later samples with output off (`offs`), and on `k` further samples with output on
again that confirm `NONE`, nothing more is written; the first non-`NONE` command
confirmed after that is written as its activate line. -/
theorem C5_disable_emits_one_release (last c0 : Cmd) (offs : List Cmd) (k : Nat) (c : Cmd)
    (hlast : last ≠ Cmd.NONE) (hc : c ≠ Cmd.NONE) :
    dispatch false last c0 = (["CMD:RELEASE"], Cmd.NONE)
    ∧ dispatchAll last ((c0, false) :: (offs.map (fun x => (x, false))
          ++ List.replicate k (Cmd.NONE, true)))
        = (["CMD:RELEASE"], Cmd.NONE)
    ∧ dispatchAll last ((c0, false) :: (offs.map (fun x => (x, false))
          ++ List.replicate k (Cmd.NONE, true) ++ [(c, true)]))
        = (["CMD:RELEASE", c.wire], c) := by
  have h0 : dispatch false last c0 = (["CMD:RELEASE"], Cmd.NONE) := by
    simp [dispatch, hlast, Ne.symm hlast]
  have h1 : dispatch true Cmd.NONE c = ([c.wire], c) := by
    simp [dispatch, hc]
  refine ⟨h0, ?_, ?_⟩
  · simp [dispatchAll, h0, dispatchAll_append, dispatchAll_off, dispatchAll_idle]
  · simp [dispatchAll, h0, h1, dispatchAll_append, dispatchAll_off, dispatchAll_idle]

/-- C5 at a concrete run: RIGHT active, output turned off while UP and LEFT are
confirmed, then turned on with two idle samples, then DOWN confirmed. -/
theorem C5_disable_emits_one_release_witness :
    dispatchAll Cmd.RIGHT [(Cmd.UP, false), (Cmd.LEFT, false), (Cmd.NONE, true),
        (Cmd.NONE, true), (Cmd.DOWN, true)] = (["CMD:RELEASE", "CMD:DOWN"], Cmd.DOWN) :=
  (C5_disable_emits_one_release Cmd.RIGHT Cmd.UP [Cmd.LEFT] 2 Cmd.DOWN
    (by decide) (by decide)).2.2

/-! ## C10 -/

/-- C10: for every engine state and every iteration that delivers a sample with
total below 3.0 (whatever the buttons), the data branch confirms `NONE`, an active
command is released on that same cycle (`CMD:RELEASE` is the only line written, and
nothing is written when nothing was active), and the baseline is left at 0. -/
theorem C10_unoccupied_confirms_none (s : Engine) (c : Cycle) (w : Sample)
    (hd : c.data = some w) (ht : w.total < 3) :
    ∃ p, (loop s c).2 = some p ∧ p.currentCmd = Cmd.NONE
      ∧ p.sent = (if s.lastCmd ≠ Cmd.NONE then ["CMD:RELEASE"] else [])
      ∧ (loop s c).1.lastCmd = Cmd.NONE ∧ (loop s c).1.baseWeight = 0 := by
  have hg := (handleInputs_data s c w hd).1
  have hl := (handleInputs_fields s c).2.1
  have hu : (handleInputs s c).g_total < 3 := by rw [hg]; exact ht
  rw [loop_data s c w hd, processData_unoccupied _ _ hu]
  refine ⟨_, rfl, ?_, ?_, ?_, ?_⟩
  · simp [finish]
  · simp [finish, dispatch_none, hl]
  · simp [finish, dispatch_none]
  · simp [finish]

/-- C10 at a concrete input: RIGHT is active with baseline 60 when a sample of total
2 kg arrives. -/
theorem C10_unoccupied_confirms_none_witness :
    ∃ p, (loop { Engine.init with lastCmd := Cmd.RIGHT, baseWeight := 60 }
            (sampleAt 5000 (Sample.even 2))).2 = some p
      ∧ p.currentCmd = Cmd.NONE
      ∧ p.sent
          = (if ({ Engine.init with lastCmd := Cmd.RIGHT, baseWeight := 60 } : Engine).lastCmd
              ≠ Cmd.NONE then ["CMD:RELEASE"] else [])
      ∧ (loop { Engine.init with lastCmd := Cmd.RIGHT, baseWeight := 60 }
            (sampleAt 5000 (Sample.even 2))).1.lastCmd = Cmd.NONE
      ∧ (loop { Engine.init with lastCmd := Cmd.RIGHT, baseWeight := 60 }
            (sampleAt 5000 (Sample.even 2))).1.baseWeight = 0 :=
  C10_unoccupied_confirms_none { Engine.init with lastCmd := Cmd.RIGHT, baseWeight := 60 }
    (sampleAt 5000 (Sample.even 2)) (Sample.even 2) rfl
    (by norm_num [Sample.total, Sample.even])

/-! ## C6 -/

/-- C6: when the latest sample `w` has total above 1.0, calibration stores its raw
balance ratios in the two offsets, and the data branch run on an identical sample right
after computes `balX = 0` and `balY = 0`; when the total is at most 1.0, calibration
stores zero in both offsets. -/
theorem C6_calibrate_centres (s : Engine) (w : Sample) (ms : Nat) :
    (w.total > 1 →
      (calibrate (wiimote_callback s w)).balX_offset = w.ratioX
      ∧ (calibrate (wiimote_callback s w)).balY_offset = w.ratioY
      ∧ (processData (wiimote_callback (calibrate (wiimote_callback s w)) w) ms).2.balX = 0
      ∧ (processData (wiimote_callback (calibrate (wiimote_callback s w)) w) ms).2.balY = 0)
    ∧ (w.total ≤ 1 →
      (calibrate (wiimote_callback s w)).balX_offset = 0
      ∧ (calibrate (wiimote_callback s w)).balY_offset = 0) := by
  constructor
  · intro h
    have h' : w.tr + w.br + w.tl + w.bl > 1 := h
    have hx : (calibrate (wiimote_callback s w)).balX_offset = w.ratioX := by
      simp [calibrate, wiimote_callback, h', Sample.ratioX, Sample.total]
    have hy : (calibrate (wiimote_callback s w)).balY_offset = w.ratioY := by
      simp [calibrate, wiimote_callback, h', Sample.ratioY, Sample.total]
    refine ⟨hx, hy, ?_⟩
    by_cases h3 : w.total < 3
    · have hu : (wiimote_callback (calibrate (wiimote_callback s w)) w).g_total < 3 := h3
      rw [processData_unoccupied _ _ hu]
      simp [finish]
    · have ho : 3 ≤ (wiimote_callback (calibrate (wiimote_callback s w)) w).g_total :=
        not_lt.mp h3
      rw [processData_occupied _ _ ho]
      have ex : (wiimote_callback (calibrate (wiimote_callback s w)) w).balX_offset
          = w.ratioX := hx
      have ey : (wiimote_callback (calibrate (wiimote_callback s w)) w).balY_offset
          = w.ratioY := hy
      simp only [finish, ex, ey]
      simp [wiimote_callback, Sample.ratioX, Sample.ratioY, Sample.total]
  · intro h
    have h' : ¬ (w.tr + w.br + w.tl + w.bl > 1) := not_lt.mpr h
    simp [calibrate, wiimote_callback, h']

/-- C6 at the sample of the specification: total 20 kg with raw X ratio 0.3 gives
`balX_offset = 0.3`, and an identical sample then gives `balX = 0` and `balY = 0`. -/
theorem C6_calibrate_centres_witness :
    (Sample.mk 8 5 4 3).total = 20 ∧ (Sample.mk 8 5 4 3).ratioX = 3 / 10
    ∧ (calibrate (wiimote_callback Engine.init (Sample.mk 8 5 4 3))).balX_offset = 3 / 10
    ∧ (processData (wiimote_callback
          (calibrate (wiimote_callback Engine.init (Sample.mk 8 5 4 3))) (Sample.mk 8 5 4 3))
        7000).2.balX = 0
    ∧ (processData (wiimote_callback
          (calibrate (wiimote_callback Engine.init (Sample.mk 8 5 4 3))) (Sample.mk 8 5 4 3))
        7000).2.balY = 0 := by
  have hx : (Sample.mk 8 5 4 3).ratioX = 3 / 10 := by
    norm_num [Sample.ratioX, Sample.total]
  have h := (C6_calibrate_centres Engine.init (Sample.mk 8 5 4 3) 7000).1
    (by norm_num [Sample.total])
  exact ⟨by norm_num [Sample.total], hx, hx ▸ h.1, h.2.2.1, h.2.2.2⟩

/-! ## C3 -/

/-- C3: from any engine state, over any sequence of iterations whose times do not
decrease and stay below `2^32` ms (no clock wrap-around), whatever the samples and the
buttons, two iterations that both confirm `CMD:SPACE` are more than 500 ms apart. -/
theorem C3_trigger_cooldown (s : Engine) (cs : List Cycle)
    (hsort : cs.Pairwise (fun a b => a.now ≤ b.now))
    (hwrap : ∀ c ∈ cs, c.now < 4294967296) :
    (cs.zip (trace s cs)).Pairwise
      (fun a b => confirmed a.2 = Cmd.SPACE → confirmed b.2 = Cmd.SPACE →
        a.1.now + 500 < b.1.now) := by
  induction cs generalizing s with
  | nil => simp [trace]
  | cons c rest ih =>
    have hs := List.pairwise_cons.mp hsort
    simp only [trace, List.zip_cons_cons, List.pairwise_cons]
    refine ⟨?_, ih (loop s c).1 hs.2 (fun c' hc' => hwrap c' (List.mem_cons_of_mem _ hc'))⟩
    intro b hb ha hbs
    have hc := hwrap c (List.mem_cons_self _ _)
    have hm : millis c.now = c.now := by unfold millis; omega
    have hl : (loop s c).1.lastSquatTime = c.now := by
      rw [((loop_squat s c).1 ha).2, hm]
    exact space_after rest (loop s c).1 c.now (by omega)
      (fun c' hc' => ⟨by rw [hl]; exact hs.1 c' hc', hwrap c' (List.mem_cons_of_mem _ hc')⟩)
      hs.2 b hb hbs

/-- C3 at a concrete run: from the initial state, totals 12, 15, 12, 15 at 1000, 1100,
1200 and 1700 ms confirm `SPACE` on the second and fourth samples, 600 ms apart. -/
theorem C3_trigger_cooldown_witness :
    (trace Engine.init [sampleAt 1000 (Sample.even 12), sampleAt 1100 (Sample.even 15),
        sampleAt 1200 (Sample.even 12), sampleAt 1700 (Sample.even 15)]).map confirmed
      = [Cmd.NONE, Cmd.SPACE, Cmd.NONE, Cmd.SPACE]
    ∧ ([sampleAt 1000 (Sample.even 12), sampleAt 1100 (Sample.even 15),
          sampleAt 1200 (Sample.even 12), sampleAt 1700 (Sample.even 15)].zip
        (trace Engine.init [sampleAt 1000 (Sample.even 12), sampleAt 1100 (Sample.even 15),
          sampleAt 1200 (Sample.even 12), sampleAt 1700 (Sample.even 15)])).Pairwise
      (fun a b => confirmed a.2 = Cmd.SPACE → confirmed b.2 = Cmd.SPACE →
        a.1.now + 500 < b.1.now) :=
  ⟨by
    norm_num +decide [trace, loop, handleInputs, sampleAt, Sample.even, wiimote_callback,
      processData, finish, dispatch, updateBaseWeight, detect, debounce, classify,
      Engine.init, millis, since, confirmed, SQUAT_RATIO, DIR_THRESHOLD],
   C3_trigger_cooldown Engine.init
    [sampleAt 1000 (Sample.even 12), sampleAt 1100 (Sample.even 15),
      sampleAt 1200 (Sample.even 12), sampleAt 1700 (Sample.even 15)]
    (by simp [sampleAt]) (by simp [sampleAt])⟩

/-! ## C4 -/

/-- C4, as stated, fails: from the initial state, a sample with `balX = 0.2` at 1000 ms,
an unoccupied sample (raw candidate `NONE`) at 1050 ms and the first sample again at
1151 ms confirm RIGHT on the third sample, although no sample taken at least 150 ms
before it starts a stretch of samples whose raw candidates are all RIGHT. -/
theorem C4_counterexample :
    (trace Engine.init [sampleAt 1000 (Sample.mk 6 6 4 4), sampleAt 1050 (Sample.mk 0 0 0 0),
        sampleAt 1151 (Sample.mk 6 6 4 4)]).map confirmed = [Cmd.NONE, Cmd.NONE, Cmd.RIGHT]
    ∧ rawCandidates Engine.init [sampleAt 1000 (Sample.mk 6 6 4 4),
        sampleAt 1050 (Sample.mk 0 0 0 0), sampleAt 1151 (Sample.mk 6 6 4 4)]
      = [Cmd.RIGHT, Cmd.NONE, Cmd.RIGHT]
    ∧ ¬ ∃ i ti, i ≤ 2 ∧ [1000, 1050, 1151][i]? = some ti ∧ ti + 150 ≤ 1151
        ∧ ∀ k, i ≤ k → k ≤ 2 →
          (rawCandidates Engine.init [sampleAt 1000 (Sample.mk 6 6 4 4),
            sampleAt 1050 (Sample.mk 0 0 0 0), sampleAt 1151 (Sample.mk 6 6 4 4)])[k]?
            = some Cmd.RIGHT := by
  have hraw : rawCandidates Engine.init [sampleAt 1000 (Sample.mk 6 6 4 4),
        sampleAt 1050 (Sample.mk 0 0 0 0), sampleAt 1151 (Sample.mk 6 6 4 4)]
      = [Cmd.RIGHT, Cmd.NONE, Cmd.RIGHT] := by
    norm_num +decide [rawCandidates, rawCandidate, Sample.ratioX, Sample.ratioY, Sample.total,
      loop, handleInputs, sampleAt, wiimote_callback, processData, finish, dispatch,
      updateBaseWeight, detect, debounce, classify, Engine.init, millis, since,
      SQUAT_RATIO, DIR_THRESHOLD]
  refine ⟨?_, hraw, ?_⟩
  · norm_num +decide [trace, loop, handleInputs, sampleAt, wiimote_callback, processData,
      finish, dispatch, updateBaseWeight, detect, debounce, classify, Engine.init, millis,
      since, confirmed, SQUAT_RATIO, DIR_THRESHOLD]
  · rw [hraw]
    rintro ⟨i, ti, hi, hti, h150, hall⟩
    interval_cases i
    · have := hall 1 (by omega) (by omega)
      simp at this
    · have := hall 1 (by omega) (by omega)
      simp at this
    · simp at hti
      omega

/-- C4, amended: starting with no pending gesture, a directional command `D` is confirmed
on the sample of iteration `j` only if that sample went through the direction block with
candidate `D`, an earlier iteration `i` did so too with the clock (32-bit difference)
more than 150 ms before, and every sample from `i` to `j` that went through the
direction block had candidate `D`.  Samples that do not go through the direction block
(unoccupied, meeting the trigger condition, or within 600 ms of the last trigger)
leave the pending gesture and its clock untouched. -/
theorem C4_direction_needs_settle (s : Engine) (cs : List Cycle)
    (hp : s.pendingCmd = Cmd.NONE) (j : Nat) (cj : Cycle) (pj : Pass) (D : Cmd)
    (hcj : cs[j]? = some cj) (hpj : (trace s cs)[j]? = some (some pj))
    (hD : pj.currentCmd = D) (hdir : D ≠ Cmd.NONE) (hsp : D ≠ Cmd.SPACE) :
    (pj.nextCmd = some D
      ∧ ∃ i ci pi, i < j ∧ cs[i]? = some ci ∧ (trace s cs)[i]? = some (some pi)
          ∧ pi.nextCmd = some D
          ∧ since (millis cj.now) (millis ci.now) > 150
          ∧ ∀ k pk m, i ≤ k → k ≤ j → (trace s cs)[k]? = some (some pk) →
              pk.nextCmd = some m → m = D)
    ∧ ∀ (st : Engine) (c : Cycle),
        (∀ p, (loop st c).2 = some p → p.nextCmd = none) →
        (loop st c).1.pendingCmd = st.pendingCmd
          ∧ (loop st c).1.pendingTime = st.pendingTime := by
  refine ⟨?_, fun st c h => ⟨((loop_debounce st c).1 h).1, ((loop_debounce st c).1 h).2.1⟩⟩
  have htr : (loop (runLoop s (cs.take j)) cj).2 = some pj := by
    have := trace_getElem cs s j
    rw [hpj, hcj] at this
    simpa using this.symm
  have hd := loop_debounce (runLoop s (cs.take j)) cj
  cases hn : pj.nextCmd with
  | none =>
    have hnone : ∀ p, (loop (runLoop s (cs.take j)) cj).2 = some p → p.nextCmd = none := by
      intro p hp'
      rw [htr] at hp'
      have : pj = p := by simpa using hp'
      rw [← this]; exact hn
    have h := (hd.1 hnone).2.2
    rw [htr] at h
    simp only [confirmed, hD] at h
    rcases h with h | h
    · exact absurd h hdir
    · exact absurd h hsp
  | some m0 =>
    obtain ⟨_, _, e3⟩ := hd.2 pj m0 htr hn
    rw [hD] at e3
    by_cases hcond : m0 ≠ Cmd.NONE ∧ m0 = (runLoop s (cs.take j)).pendingCmd
        ∧ since (millis cj.now) (runLoop s (cs.take j)).pendingTime > 150
    · rw [if_pos hcond] at e3
      subst e3
      obtain ⟨_, hm, h150⟩ := hcond
      obtain ⟨i, ci, pi, hi, hci, hpi, hnx, hpt, hall⟩ :=
        pending_origin s cs hp j (by rw [← hm]; exact hdir)
      refine ⟨rfl, i, ci, pi, hi, hci, hpi, by rw [hnx, hm], by rw [← hpt]; exact h150, ?_⟩
      intro k pk m hik hk hpk hmk
      by_cases hkj : k < j
      · rw [hm]; exact hall k pk m hik hkj hpk hmk
      · have hke : k = j := by omega
        subst hke
        rw [hpj] at hpk
        have : pj = pk := by simpa using hpk
        subst this
        rw [hn] at hmk
        simpa using hmk.symm
    · rw [if_neg hcond] at e3
      exact absurd e3 hdir

/-- C4, amended, at a concrete run: from the initial state, five samples with
`balX = 0.2` taken 50 ms apart from 1000 ms on confirm RIGHT on the fifth, and the
sample that started the stretch is the first one. -/
theorem C4_direction_needs_settle_witness :
    ∃ pj, (trace Engine.init [sampleAt 1000 (Sample.mk 6 6 4 4),
        sampleAt 1050 (Sample.mk 6 6 4 4), sampleAt 1100 (Sample.mk 6 6 4 4),
        sampleAt 1150 (Sample.mk 6 6 4 4), sampleAt 1200 (Sample.mk 6 6 4 4)])[4]?
        = some (some pj)
      ∧ pj.currentCmd = Cmd.RIGHT ∧ pj.nextCmd = some Cmd.RIGHT := by
  have hcur : ∃ pj, (trace Engine.init [sampleAt 1000 (Sample.mk 6 6 4 4),
        sampleAt 1050 (Sample.mk 6 6 4 4), sampleAt 1100 (Sample.mk 6 6 4 4),
        sampleAt 1150 (Sample.mk 6 6 4 4), sampleAt 1200 (Sample.mk 6 6 4 4)])[4]?
        = some (some pj) ∧ pj.currentCmd = Cmd.RIGHT := by
    refine ⟨_, rfl, ?_⟩
    norm_num +decide [loop, handleInputs, sampleAt, wiimote_callback, processData,
      finish, dispatch, updateBaseWeight, detect, debounce, classify, Engine.init, millis,
      since, SQUAT_RATIO, DIR_THRESHOLD]
  obtain ⟨pj, hpj, hc⟩ := hcur
  exact ⟨pj, hpj, hc,
    (C4_direction_needs_settle Engine.init _ rfl 4 (sampleAt 1200 (Sample.mk 6 6 4 4)) pj
      Cmd.RIGHT rfl hpj hc (by decide) (by decide)).1.1⟩

/-! ## C7 -/

/-- C7, as stated, fails in two ways.  First, an unoccupied sample replaces a non-zero
baseline by 0 at once: totals 12 then 0 give baseline 12 then 0, and the total 0 does
not exceed 12 + 2.  Second, `heavyTime` survives the fast path: from the initial state,
totals 5, 12, 15 at 1000, 1100 and 1600 ms give baseline 12 after the second sample
and 15 after the third, although the second sample (total 12) does not exceed 12 + 2,
so the run of consecutive samples above 14 that ends at the third sample is that
sample alone. -/
theorem C7_counterexample :
    ((runLoop Engine.init [sampleAt 1000 (Sample.even 12)]).baseWeight = 12
      ∧ (runLoop Engine.init
          [sampleAt 1000 (Sample.even 12), sampleAt 1100 (Sample.even 0)]).baseWeight = 0
      ∧ ¬ ((Sample.even 0).total > 12 + 2))
    ∧ ((runLoop Engine.init
          [sampleAt 1000 (Sample.even 5), sampleAt 1100 (Sample.even 12)]).baseWeight = 12
      ∧ (runLoop Engine.init [sampleAt 1000 (Sample.even 5), sampleAt 1100 (Sample.even 12),
          sampleAt 1600 (Sample.even 15)]).baseWeight = 15
      ∧ ¬ ((Sample.even 12).total > 12 + 2)) := by
  norm_num +decide [runLoop, loop, handleInputs, sampleAt, Sample.even, Sample.total,
    wiimote_callback, processData, finish, dispatch, updateBaseWeight, detect, debounce,
    classify, Engine.init, millis, since, SQUAT_RATIO, DIR_THRESHOLD]

/-- C7, amended: from a state with a non-zero baseline and `heavyTime` unset, over
iterations that each deliver an occupied sample (total at least 3.0) without
calibration, whenever iteration `j` replaces the baseline `b` by a different value,
the total has exceeded `b + 2.0` on every sample from an earlier iteration `i` to `j`
and the clock (32-bit difference) has advanced by more than 500 ms from `i` to `j`. -/
theorem C7_baseline_needs_hold (s : Engine) (cs : List Cycle) (hb : s.baseWeight ≠ 0)
    (hh : s.heavyTime = 0)
    (hcs : ∀ c ∈ cs, c.btnA = false ∧ ∃ w, c.data = some w ∧ 3 ≤ w.total)
    (j : Nat) (cj : Cycle) (hcj : cs[j]? = some cj)
    (hchg : (runLoop s (cs.take (j + 1))).baseWeight ≠ (runLoop s (cs.take j)).baseWeight) :
    ∃ i ci, i < j ∧ cs[i]? = some ci
      ∧ since (millis cj.now) (millis ci.now) > 500
      ∧ ∀ k ck w, i ≤ k → k ≤ j → cs[k]? = some ck → ck.data = some w →
          w.total > (runLoop s (cs.take j)).baseWeight + 2 := by
  obtain ⟨ihb, ihh⟩ := heavy_origin s cs hb hh hcs j
  obtain ⟨hA, w, hd, h3⟩ := hcs cj (List.getElem?_mem hcj)
  rw [runLoop_take_succ s cs j cj hcj] at hchg
  rcases loop_heavy (runLoop s (cs.take j)) cj w hA hd h3 ihb with
    ⟨_, _, e1, _⟩ | ⟨hgt, hn0, h500, _, _⟩ | ⟨_, _, _, e1, _⟩ | ⟨_, e1, _⟩
  · exact absurd e1 hchg
  · obtain ⟨i, ci, hi, hci, hpt, hall⟩ := ihh hn0
    refine ⟨i, ci, hi, hci, by rw [← hpt]; exact h500, ?_⟩
    intro k ck w' hik hk hck hw
    by_cases hkj : k < j
    · exact hall k ck w' hik hkj hck hw
    · have hke : k = j := by omega
      subst hke
      rw [hcj] at hck
      have : cj = ck := by simpa using hck
      subst this
      rw [hd] at hw
      have : w = w' := by simpa using hw
      subst this
      exact hgt
  · exact absurd e1 hchg
  · exact absurd e1 hchg

/-- C7, amended, at a concrete run: with baseline 12 and the timer unset, totals 15, 15,
15 at 1000, 1300 and 1600 ms replace the baseline by 15 on the third sample, 600 ms
after the first. -/
theorem C7_baseline_needs_hold_witness :
    (runLoop { Engine.init with baseWeight := 12 }
        ([sampleAt 1000 (Sample.even 15), sampleAt 1300 (Sample.even 15),
          sampleAt 1600 (Sample.even 15)].take (2 + 1))).baseWeight = 15
    ∧ ∃ i ci, i < 2
      ∧ [sampleAt 1000 (Sample.even 15), sampleAt 1300 (Sample.even 15),
          sampleAt 1600 (Sample.even 15)][i]? = some ci
      ∧ since (millis (sampleAt 1600 (Sample.even 15)).now) (millis ci.now) > 500
      ∧ ∀ k ck w, i ≤ k → k ≤ 2 →
          [sampleAt 1000 (Sample.even 15), sampleAt 1300 (Sample.even 15),
            sampleAt 1600 (Sample.even 15)][k]? = some ck → ck.data = some w →
          w.total > (runLoop { Engine.init with baseWeight := 12 }
            ([sampleAt 1000 (Sample.even 15), sampleAt 1300 (Sample.even 15),
              sampleAt 1600 (Sample.even 15)].take 2)).baseWeight + 2 := by
  have h15 : (runLoop { Engine.init with baseWeight := 12 }
        ([sampleAt 1000 (Sample.even 15), sampleAt 1300 (Sample.even 15),
          sampleAt 1600 (Sample.even 15)].take (2 + 1))).baseWeight = 15 := by
    norm_num +decide [runLoop, loop, handleInputs, sampleAt, Sample.even, Sample.total,
      wiimote_callback, processData, finish, dispatch, updateBaseWeight, detect, debounce,
      classify, Engine.init, millis, since, SQUAT_RATIO, DIR_THRESHOLD]
  have h12 : (runLoop { Engine.init with baseWeight := 12 }
        ([sampleAt 1000 (Sample.even 15), sampleAt 1300 (Sample.even 15),
          sampleAt 1600 (Sample.even 15)].take 2)).baseWeight = 12 := by
    norm_num +decide [runLoop, loop, handleInputs, sampleAt, Sample.even, Sample.total,
      wiimote_callback, processData, finish, dispatch, updateBaseWeight, detect, debounce,
      classify, Engine.init, millis, since, SQUAT_RATIO, DIR_THRESHOLD]
  refine ⟨h15, C7_baseline_needs_hold { Engine.init with baseWeight := 12 }
    [sampleAt 1000 (Sample.even 15), sampleAt 1300 (Sample.even 15),
      sampleAt 1600 (Sample.even 15)]
    (by norm_num [Engine.init]) rfl ?_ 2 (sampleAt 1600 (Sample.even 15)) rfl
    (by rw [h15, h12]; norm_num)⟩
  intro c hc
  simp only [List.mem_cons, List.mem_singleton, List.not_mem_nil, or_false] at hc
  rcases hc with rfl | rfl | rfl <;>
    exact ⟨rfl, Sample.even 15, rfl, by norm_num [Sample.even, Sample.total]⟩

/-! ## C8 -/

/-- C8, as stated, fails right after start: from the initial state, samples with totals
0, 12, 15 taken 100, 200 and 300 ms after start give baseline 12 after the second, the
third is occupied and exceeds 1.12 times the baseline (still 12), no trigger has been
accepted yet (`lastSquatTime` is still 0), and the third sample confirms nothing. -/
theorem C8_counterexample :
    (runLoop Engine.init [sampleAt 100 (Sample.even 0), sampleAt 200 (Sample.even 12)]).baseWeight
        = 12
    ∧ (runLoop Engine.init
        [sampleAt 100 (Sample.even 0), sampleAt 200 (Sample.even 12)]).lastSquatTime = 0
    ∧ (3 : ℚ) ≤ (Sample.even 15).total
    ∧ (Sample.even 15).total
        > (runLoop Engine.init [sampleAt 100 (Sample.even 0), sampleAt 200 (Sample.even 12),
            sampleAt 300 (Sample.even 15)]).baseWeight * (1 + SQUAT_RATIO)
    ∧ (trace Engine.init [sampleAt 100 (Sample.even 0), sampleAt 200 (Sample.even 12),
          sampleAt 300 (Sample.even 15)]).map confirmed
        = [Cmd.NONE, Cmd.NONE, Cmd.NONE] := by
  norm_num +decide [runLoop, trace, loop, handleInputs, sampleAt, Sample.even, Sample.total,
    wiimote_callback, processData, finish, dispatch, updateBaseWeight, detect, debounce,
    classify, Engine.init, millis, since, confirmed, SQUAT_RATIO, DIR_THRESHOLD]

/-- C8, amended: an iteration that delivers an occupied sample (total at least 3.0)
whose total exceeds 1.12 times the baseline as updated by that same sample confirms
`SPACE` whenever the 32-bit clock difference to `lastSquatTime` exceeds 500 ms, where
`lastSquatTime` is the time of the last accepted trigger and 0 before any was accepted;
while that difference is at most 500 ms nothing is confirmed, so the first 500 ms after
start count as a cooldown.  From the initial state, samples with totals 0, 12, 15, the
third taken when the clock reads more than 500 ms, give baseline 0, then 12, then
`SPACE` on the third sample, and no iteration of the next 500 ms confirms anything. -/
theorem C8_trigger_after_cooldown (s : Engine) (c : Cycle) (w : Sample)
    (w1 w2 w3 : Sample) (t1 t2 t3 : Nat) (later : List Cycle) :
    (c.data = some w → 3 ≤ w.total →
      w.total > (loop s c).1.baseWeight * (1 + SQUAT_RATIO) →
      since (millis c.now) s.lastSquatTime > 500 →
      confirmed (loop s c).2 = Cmd.SPACE ∧ (loop s c).1.lastSquatTime = millis c.now)
    ∧ (since (millis c.now) s.lastSquatTime ≤ 500 → confirmed (loop s c).2 = Cmd.NONE)
    ∧ Engine.init.lastSquatTime = 0
    ∧ (w1.total = 0 → w2.total = 12 → w3.total = 15 → 500 < millis t3 →
      (∀ x ∈ later, t3 ≤ x.now ∧ x.now ≤ t3 + 500) →
      (runLoop Engine.init [sampleAt t1 w1]).baseWeight = 0
      ∧ (runLoop Engine.init [sampleAt t1 w1, sampleAt t2 w2]).baseWeight = 12
      ∧ (trace Engine.init
            ([sampleAt t1 w1, sampleAt t2 w2, sampleAt t3 w3] ++ later)).map confirmed
          = [Cmd.NONE, Cmd.NONE, Cmd.SPACE] ++ later.map (fun _ => Cmd.NONE)) := by
  have general : ∀ (s : Engine) (c : Cycle) (w : Sample), c.data = some w → 3 ≤ w.total →
      w.total > (loop s c).1.baseWeight * (1 + SQUAT_RATIO) →
      since (millis c.now) s.lastSquatTime > 500 →
      confirmed (loop s c).2 = Cmd.SPACE ∧ (loop s c).1.lastSquatTime = millis c.now := by
    intro s c w hd h3 htr hcool
    have hg := (handleInputs_data s c w hd).1
    have hsq := processData_squat (handleInputs s c) (millis c.now)
    rw [(handleInputs_fields s c).1, hg] at hsq
    rw [loop_data s c w hd] at htr
    have hsp := hsq.2.2.2 h3 htr hcool
    have hconf : confirmed (loop s c).2 = Cmd.SPACE := by
      rw [loop_data s c w hd]; exact hsp
    exact ⟨hconf, ((loop_squat s c).1 hconf).2⟩
  refine ⟨general s c w, (loop_squat s c).2.2, rfl, ?_⟩
  intro h1 h2 h3 ht3 hlater
  have e1 := sample_unoccupied Engine.init t1 w1 (by rw [h1]; norm_num)
  have e2 := sample_fastpath (loop Engine.init (sampleAt t1 w1)).1 t2 w2 e1.1
    (by rw [h2]; norm_num) (by rw [e1.2.2.2.1]; rfl)
  have hb2 : (loop (loop Engine.init (sampleAt t1 w1)).1 (sampleAt t2 w2)).1.baseWeight = 12 := by
    rw [e2.1, h2]
  have hh2 : (loop (loop Engine.init (sampleAt t1 w1)).1 (sampleAt t2 w2)).1.heavyTime = 0 := by
    rw [e2.2.1, e1.2.1]; rfl
  have hs2 : (loop (loop Engine.init (sampleAt t1 w1)).1 (sampleAt t2 w2)).1.lastSquatTime = 0 := by
    rw [e2.2.2.1, e1.2.2.1]; rfl
  have hb3 : (loop (loop (loop Engine.init (sampleAt t1 w1)).1 (sampleAt t2 w2)).1
      (sampleAt t3 w3)).1.baseWeight = 12 := by
    rw [loop_sampleAt, (processData_base _ _).1]
    have hg : (wiimote_callback (loop (loop Engine.init (sampleAt t1 w1)).1 (sampleAt t2 w2)).1
        w3).g_total = 15 := h3
    have hbw : (wiimote_callback (loop (loop Engine.init (sampleAt t1 w1)).1 (sampleAt t2 w2)).1
        w3).baseWeight = 12 := hb2
    have hhw : (wiimote_callback (loop (loop Engine.init (sampleAt t1 w1)).1 (sampleAt t2 w2)).1
        w3).heavyTime = 0 := hh2
    rw [hg]
    norm_num [updateBaseWeight, hbw, hhw]
  have e3 := general (loop (loop Engine.init (sampleAt t1 w1)).1 (sampleAt t2 w2)).1
    (sampleAt t3 w3) w3 rfl (by rw [h3]; norm_num)
    (by rw [hb3, h3]; norm_num [ SQUAT_RATIO])
    (by rw [hs2]; unfold since; simp only [sampleAt]; unfold millis at ht3 ⊢; omega)
  have hq := trace_quiet later
    (loop (loop (loop Engine.init (sampleAt t1 w1)).1 (sampleAt t2 w2)).1 (sampleAt t3 w3)).1
    (by
      intro x hx
      rw [e3.2]
      have := hlater x hx
      simp only [sampleAt]
      rw [since_millis t3 x.now this.1 (by omega)]
      omega)
  refine ⟨e1.1, hb2, ?_⟩
  have happ : [sampleAt t1 w1, sampleAt t2 w2, sampleAt t3 w3] ++ later
      = sampleAt t1 w1 :: sampleAt t2 w2 :: sampleAt t3 w3 :: later := rfl
  rw [happ]
  simp only [trace, List.map_cons, e1.2.2.2.2.2, e2.2.2.2, e3.1, hq]
  rfl

/-- C8, amended, at a concrete input: with baseline 12 and no trigger accepted yet, a
sample of total 15 at 1200 ms confirms `SPACE`; and the scenario with samples at 1000,
1100, 1200 ms followed by two more samples of total 15 at 1300 and 1700 ms. -/
theorem C8_trigger_after_cooldown_witness :
    confirmed (loop { Engine.init with baseWeight := 12 } (sampleAt 1200 (Sample.even 15))).2
        = Cmd.SPACE
    ∧ (trace Engine.init
          ([sampleAt 1000 (Sample.even 0), sampleAt 1100 (Sample.even 12),
            sampleAt 1200 (Sample.even 15)]
            ++ [sampleAt 1300 (Sample.even 15), sampleAt 1700 (Sample.even 15)])).map confirmed
        = [Cmd.NONE, Cmd.NONE, Cmd.SPACE] ++ [Cmd.NONE, Cmd.NONE] := by
  have h := C8_trigger_after_cooldown { Engine.init with baseWeight := 12 }
    (sampleAt 1200 (Sample.even 15)) (Sample.even 15)
    (Sample.even 0) (Sample.even 12) (Sample.even 15) 1000 1100 1200
    [sampleAt 1300 (Sample.even 15), sampleAt 1700 (Sample.even 15)]
  refine ⟨(h.1 rfl (by norm_num [Sample.even, Sample.total]) ?_ (by decide)).1,
    (h.2.2.2 (by norm_num [Sample.even, Sample.total])
      (by norm_num [Sample.even, Sample.total])
      (by norm_num [Sample.even, Sample.total]) (by decide) ?_).2.2⟩
  · norm_num +decide [loop, handleInputs, sampleAt, Sample.even, Sample.total,
      wiimote_callback, processData, finish, dispatch, updateBaseWeight, detect, debounce,
      classify, Engine.init, millis, since, confirmed, SQUAT_RATIO, DIR_THRESHOLD]
  · intro x hx
    simp only [List.mem_cons, List.mem_singleton, List.not_mem_nil, or_false] at hx
    rcases hx with rfl | rfl <;> simp [sampleAt]

/-! ## C9 -/

/-- C9, as stated, fails: from the initial state (no pending gesture, zero offsets,
up-down detection enabled, no trigger accepted and the clock past 600 ms), three
samples taken 50 ms apart, each occupied, below the trigger condition, with
`balX = 0.2` and `balY = 0`, all reach the direction block with candidate RIGHT, and
none of them confirms RIGHT: the third comes only 100 ms after the first. -/
theorem C9_counterexample :
    (trace Engine.init [sampleAt 1000 (Sample.mk 6 6 4 4), sampleAt 1050 (Sample.mk 6 6 4 4),
        sampleAt 1100 (Sample.mk 6 6 4 4)]).map
      (fun o => o.map (fun p => (p.balX, p.balY, p.nextCmd, p.currentCmd)))
    = [some (1 / 5, 0, some Cmd.RIGHT, Cmd.NONE), some (1 / 5, 0, some Cmd.RIGHT, Cmd.NONE),
        some (1 / 5, 0, some Cmd.RIGHT, Cmd.NONE)] := by
  norm_num +decide [trace, loop, handleInputs, sampleAt, wiimote_callback, processData,
    finish, dispatch, updateBaseWeight, detect, debounce, classify, Engine.init, millis,
    since, SQUAT_RATIO, DIR_THRESHOLD]

/-- C9, amended: starting with no pending gesture, zero offsets, up-down detection
enabled and more than 600 ms after any trigger, consecutive occupied samples of one
total that is below the trigger condition (at most 1.12 times the baseline, or above
10 with the baseline at 0, where the fast path makes it the baseline) taken 50 ms
apart with `balX = 0.2` and `balY = 0` confirm nothing on the first four (the third
is 100 ms, the fourth exactly 150 ms after the first) and confirm RIGHT on the fifth,
the first one taken more than 150 ms after the first.  If the middle one of the first
three has `balX = -0.2` instead, the debounce timer is reset (the pending time is the
time of the third sample) and RIGHT is not confirmed on the third sample. -/
theorem C9_right_on_fifth_sample (s : Engine) (w v : Sample) (t : Nat)
    (hp : s.pendingCmd = Cmd.NONE) (hx : s.balX_offset = 0) (hy : s.balY_offset = 0)
    (hud : s.upDownEnabled = true)
    (h3 : 3 ≤ w.total)
    (hnt : w.total ≤ s.baseWeight * (1 + SQUAT_RATIO) ∨ (s.baseWeight = 0 ∧ 10 < w.total))
    (hwx : w.ratioX = 1 / 5) (hwy : w.ratioY = 0)
    (hv : v.total = w.total) (hvx : v.ratioX = -(1 / 5)) (hvy : v.ratioY = 0)
    (hset : ∀ k, k ≤ 4 → since (millis (t + 50 * k)) s.lastSquatTime > 600) :
    (trace s [sampleAt t w, sampleAt (t + 50) w, sampleAt (t + 100) w, sampleAt (t + 150) w,
        sampleAt (t + 200) w]).map confirmed
      = [Cmd.NONE, Cmd.NONE, Cmd.NONE, Cmd.NONE, Cmd.RIGHT]
    ∧ (trace s [sampleAt t w, sampleAt (t + 50) v, sampleAt (t + 100) w]).map confirmed
      = [Cmd.NONE, Cmd.NONE, Cmd.NONE]
    ∧ (runLoop s [sampleAt t w, sampleAt (t + 50) v, sampleAt (t + 100) w]).pendingCmd
      = Cmd.RIGHT
    ∧ (runLoop s [sampleAt t w, sampleAt (t + 50) v, sampleAt (t + 100) w]).pendingTime
      = millis (t + 100) := by
  have cR : classify true w.ratioX w.ratioY = Cmd.RIGHT := by
    rw [hwx, hwy]; norm_num +decide [classify, DIR_THRESHOLD]
  have cL : classify true v.ratioX v.ratioY = Cmd.LEFT := by
    rw [hvx, hvy]; norm_num +decide [classify, DIR_THRESHOLD]
  have nR : Cmd.RIGHT ≠ Cmd.NONE := by decide
  have nL : Cmd.LEFT ≠ Cmd.NONE := by decide
  have d50 : since (millis (t + 50)) (millis t) = 50 := by
    rw [since_millis t (t + 50) (by omega) (by omega)]; omega
  have d100 : since (millis (t + 100)) (millis t) = 100 := by
    rw [since_millis t (t + 100) (by omega) (by omega)]; omega
  have d150 : since (millis (t + 150)) (millis t) = 150 := by
    rw [since_millis t (t + 150) (by omega) (by omega)]; omega
  have d200 : since (millis (t + 200)) (millis t) = 200 := by
    rw [since_millis t (t + 200) (by omega) (by omega)]; omega
  have q0 := hset 0 (by omega)
  have q1 := hset 1 (by omega)
  have q2 := hset 2 (by omega)
  have q3 := hset 3 (by omega)
  have q4 := hset 4 (by omega)
  simp only [Nat.mul_zero, Nat.add_zero, Nat.mul_one, Nat.reduceMul] at q0 q1 q2 q3 q4
  -- first sample: RIGHT becomes pending
  have e1 := dir_step s t w Cmd.RIGHT h3 hnt q0 hx hy hud cR nR
  rw [hp] at e1
  simp only [nR, if_false, false_and] at e1
  obtain ⟨b1, l1, x1, y1, u1, p1, pt1, c1⟩ := e1
  -- five identical samples
  have f2 := dir_step _ (t + 50) w Cmd.RIGHT h3 (Or.inl b1) (by rw [l1]; exact q1) x1 y1 u1 cR nR
  rw [p1, pt1, d50] at f2
  simp only [if_true, if_false, true_and, gt_iff_lt, Nat.reduceLT, lt_self_iff_false] at f2
  obtain ⟨b2, l2, x2, y2, u2, p2, pt2, c2⟩ := f2
  have f3 := dir_step _ (t + 100) w Cmd.RIGHT h3 (Or.inl b2) (by rw [l2, l1]; exact q2) x2 y2
    u2 cR nR
  rw [p2, pt2, d100] at f3
  simp only [if_true, if_false, true_and, gt_iff_lt, Nat.reduceLT, lt_self_iff_false] at f3
  obtain ⟨b3, l3, x3, y3, u3, p3, pt3, c3⟩ := f3
  have f4 := dir_step _ (t + 150) w Cmd.RIGHT h3 (Or.inl b3) (by rw [l3, l2, l1]; exact q3) x3 y3 u3
    cR nR
  rw [p3, pt3, d150] at f4
  simp only [if_true, if_false, true_and, gt_iff_lt, Nat.reduceLT, lt_self_iff_false] at f4
  obtain ⟨b4, l4, x4, y4, u4, p4, pt4, c4⟩ := f4
  have f5 := dir_step _ (t + 200) w Cmd.RIGHT h3 (Or.inl b4)
    (by rw [l4, l3, l2, l1]; exact q4) x4 y4
    u4 cR nR
  rw [p4, pt4, d200] at f5
  simp only [if_true, if_false, true_and, gt_iff_lt, Nat.reduceLT, lt_self_iff_false] at f5
  obtain ⟨_, _, _, _, _, _, _, c5⟩ := f5
  -- the outlier in the middle
  have g2 := dir_step _ (t + 50) v Cmd.LEFT (by rw [hv]; exact h3) (Or.inl (by rw [hv]; exact b1))
    (by rw [l1]; exact q1) x1 y1 u1 cL nL
  rw [p1] at g2
  simp only [show ¬ (Cmd.LEFT = Cmd.RIGHT) by decide, if_false, false_and] at g2
  obtain ⟨gb2, gl2, gx2, gy2, gu2, gp2, gpt2, gc2⟩ := g2
  rw [hv] at gb2
  have g3 := dir_step _ (t + 100) w Cmd.RIGHT h3 (Or.inl gb2) (by rw [gl2, l1]; exact q2)
    gx2 gy2 gu2
    cR nR
  rw [gp2] at g3
  simp only [show ¬ (Cmd.RIGHT = Cmd.LEFT) by decide, if_false, false_and] at g3
  obtain ⟨_, _, _, _, _, gp3, gpt3, gc3⟩ := g3
  refine ⟨?_, ?_, gp3, gpt3⟩
  · simp only [trace, List.map_cons, List.map_nil, c1, c2, c3, c4, c5]
  · simp only [trace, List.map_cons, List.map_nil, c1, gc2, gc3]

/-- C9, amended, at a concrete input: the initial state, samples of total 20 with
corner weights 6, 6, 4, 4 (`balX = 0.2`, `balY = 0`) from 1000 ms on, and the outlier
4, 4, 6, 6 (`balX = -0.2`). -/
theorem C9_right_on_fifth_sample_witness :
    (trace Engine.init [sampleAt 1000 (Sample.mk 6 6 4 4), sampleAt (1000 + 50) (Sample.mk 6 6 4 4),
        sampleAt (1000 + 100) (Sample.mk 6 6 4 4), sampleAt (1000 + 150) (Sample.mk 6 6 4 4),
        sampleAt (1000 + 200) (Sample.mk 6 6 4 4)]).map confirmed
      = [Cmd.NONE, Cmd.NONE, Cmd.NONE, Cmd.NONE, Cmd.RIGHT]
    ∧ (trace Engine.init [sampleAt 1000 (Sample.mk 6 6 4 4),
        sampleAt (1000 + 50) (Sample.mk 4 4 6 6),
        sampleAt (1000 + 100) (Sample.mk 6 6 4 4)]).map confirmed
      = [Cmd.NONE, Cmd.NONE, Cmd.NONE] := by
  have h := C9_right_on_fifth_sample Engine.init (Sample.mk 6 6 4 4) (Sample.mk 4 4 6 6) 1000
    rfl rfl rfl rfl (by norm_num [Sample.total])
    (Or.inr ⟨rfl, by norm_num [Sample.total]⟩)
    (by norm_num [Sample.ratioX, Sample.total]) (by norm_num [Sample.ratioY, Sample.total])
    (by norm_num [Sample.total]) (by norm_num [Sample.ratioX, Sample.total])
    (by norm_num [Sample.ratioY, Sample.total])
    (by
      intro k hk
      have hl : Engine.init.lastSquatTime = 0 := rfl
      rw [hl]
      interval_cases k <;> decide)
  exact ⟨h.1, h.2.1⟩

end WiiBoard
